import Mathlib

/-!
# FOS_Backend: fertilizer ordering backend

A shallow embedding of the request handlers of `src/routes/auth.js`,
`src/routes/farmer.js` and `src/routes/admin.js` over the three Mongoose
collections declared in `src/models/`.

Modelling conventions.

* A collection is a list of documents in insertion order. Documents are never
  deleted by any handler, so the `_id` of a document is modelled by its
  position in the list: `findById id` is `list[id]?`, a fresh `_id` is the
  current length.
* `Date` values are natural numbers (milliseconds since the epoch); the clock
  reading `new Date()` / `Date.now()` is an explicit argument `now`.
* The business numbers (`landArea`, `ratePerHectare`, `quantityRequired`) live
  in an arbitrary type `Num` with a multiplication and a zero; every theorem
  about them holds for any such number system, the IEEE doubles of the
  runtime included.  A number is truthy when it is not zero.
* The arithmetic whose rounding matters (`generateOTP`, the metrics rates) is
  modelled on binary64 values as rationals with an explicit rounding `fl`.
* `jwt.sign` is external: a token is modelled by its payload.
* `req.user` (set by the authentication middleware, which is not part of the
  sources) is an argument of the protected handlers.
-/

namespace FOS

/-! ## Data model (`src/models`) -/

/-- The `userType` enum of `userSchema`. -/
inductive UserType where
  | farmer
  | admin
deriving DecidableEq

/-- The `status` enum of `orderSchema`. -/
inductive OrderStatus where
  | pending
  | approved
  | declined
deriving DecidableEq

/-- The nested `otp` object of a user: `code`, `expiresAt`, `attempts`. -/
structure OtpEnvelope where
  code : String
  expiresAt : Nat
  attempts : Nat
deriving DecidableEq

/-- A document of the `User` collection. -/
structure User (Num : Type) where
  phoneNumber : String
  fullName : String
  userType : UserType
  email : Option String
  landArea : Option Num
  otp : Option OtpEnvelope
  isVerified : Bool
  createdAt : Nat
  updatedAt : Nat
deriving DecidableEq

/-- A document of the `Fertilizer` collection. -/
structure Fertilizer (Num : Type) where
  name : String
  ratePerHectare : Num
  unit : String
  description : String
  isActive : Bool
  updatedByAdmin : Option Nat
  updatedAt : Nat
  createdAt : Nat
deriving DecidableEq

/-- A document of the `Order` collection. -/
structure Order (Num : Type) where
  farmerId : Nat
  farmerName : String
  landArea : Num
  fertilizerId : Nat
  fertilizerName : String
  ratePerUnit : Num
  quantityRequired : Num
  status : OrderStatus
  remarks : String
  approvedBy : Option Nat
  approvedAt : Option Nat
  createdAt : Nat
  updatedAt : Nat
deriving DecidableEq

/-- The database: the three collections. -/
structure Store (Num : Type) where
  users : List (User Num)
  fertilizers : List (Fertilizer Num)
  orders : List (Order Num)
deriving DecidableEq

/-- The token payload decoded into `req.user`. -/
structure ReqUser where
  userId : Nat
  phoneNumber : String
  userType : UserType
deriving DecidableEq

/-- An HTTP answer: status code, the `message` field and the rest of the JSON
body (absent on the error answers). -/
structure Response (β : Type) where
  status : Nat
  message : String
  body : Option β
deriving DecidableEq

/-! ## Schema validation run by `save()` on a new document -/

/-- JavaScript truthiness of an optional string field of a request body. -/
def truthyStr : Option String → Bool
  | some s => decide (s ≠ "")
  | none => false

/-- JavaScript truthiness of an optional number field of a request body. -/
def truthyNum {Num : Type} [Zero Num] [DecidableEq Num] : Option Num → Bool
  | some x => decide (x ≠ 0)
  | none => false

/-- The code points removed by `String.prototype.trim` (schema option
`trim: true`). -/
def isJsWhitespace (c : Char) : Bool :=
  let n := c.toNat
  n = 9 || n = 10 || n = 11 || n = 12 || n = 13 || n = 32 || n = 160 ||
    n = 5760 || (8192 ≤ n && n ≤ 8202) || n = 8232 || n = 8233 || n = 8239 ||
    n = 8287 || n = 12288 || n = 65279

/-- `String.prototype.trim`. -/
def jsTrim (s : String) : String :=
  String.mk (((s.toList.dropWhile isJsWhitespace).reverse.dropWhile isJsWhitespace).reverse)

/-- The `match: /^\+?[0-9]{7,15}$/` validator of `phoneNumber`. -/
def phoneMatch (s : String) : Bool :=
  let ds := match s.toList with
    | '+' :: t => t
    | cs => cs
  decide (7 ≤ ds.length) && decide (ds.length ≤ 15) && ds.all Char.isDigit

/-- Validation of a `User` document: `phoneNumber` required and matching,
`fullName` required, `landArea` required when `userType` is `farmer`. -/
def validateUser {Num : Type} (u : User Num) : Bool :=
  decide (u.phoneNumber ≠ "") && phoneMatch u.phoneNumber && decide (u.fullName ≠ "") &&
    (decide (u.userType ≠ UserType.farmer) || u.landArea.isSome)

/-- Validation of a `Fertilizer` document: `name` required (the rate is
present by typing). -/
def validateFertilizer {Num : Type} (f : Fertilizer Num) : Bool :=
  decide (f.name ≠ "")

/-- Validation of an `Order` document: the two required strings (the required
numbers and references are present by typing). -/
def validateOrder {Num : Type} (o : Order Num) : Bool :=
  decide (o.farmerName ≠ "") && decide (o.fertilizerName ≠ "")

/-! ## `src/routes/farmer.js` -/

/-- The `order` object of the 201 answer of `submit-order`. -/
structure SubmitOrderBody (Num : Type) where
  id : Nat
  fertilizer : String
  quantity : Num
  unit : String
  status : OrderStatus
deriving DecidableEq

/-- The answer `res.status(500).json({ message: 'Server error', ... })` of
the `catch` block of every handler. -/
def serverError {β : Type} : Response β :=
  { status := 500, message := "Server error", body := none }

/-- `POST /farmer/submit-order` (after the authentication middleware):
`verifyFarmer`, the two look-ups, the quantity, the new order and its
`save()`. -/
def submitOrder {Num : Type} [Mul Num] (db : Store Num) (reqUser : ReqUser)
    (fertilizerId : Nat) (now : Nat) : Response (SubmitOrderBody Num) × Store Num :=
  if reqUser.userType ≠ UserType.farmer then
    ({ status := 403, message := "Access denied. Farmers only.", body := none }, db)
  else
    match db.users[reqUser.userId]? with
    | none => ({ status := 404, message := "Farmer not found", body := none }, db)
    | some farmer =>
      match db.fertilizers[fertilizerId]? with
      | none => ({ status := 404, message := "Fertilizer not found", body := none }, db)
      | some fertilizer =>
        match farmer.landArea with
        | none => (serverError, db)
        | some area =>
          let quantityRequired := area * fertilizer.ratePerHectare
          let order : Order Num :=
            { farmerId := reqUser.userId
              farmerName := farmer.fullName
              landArea := area
              fertilizerId := fertilizerId
              fertilizerName := fertilizer.name
              ratePerUnit := fertilizer.ratePerHectare
              quantityRequired := quantityRequired
              status := OrderStatus.pending
              remarks := ""
              approvedBy := none
              approvedAt := none
              createdAt := now
              updatedAt := now }
          if validateOrder order then
            ({ status := 201, message := "Order submitted successfully",
               body := some { id := db.orders.length
                              fertilizer := fertilizer.name
                              quantity := quantityRequired
                              unit := fertilizer.unit
                              status := order.status } },
             { db with orders := db.orders ++ [order] })
          else (serverError, db)

/-! ## Binary64 arithmetic

`Math.random() * 9000`, `1000 + …` and `(a / n) * 100` are computed on IEEE
754 doubles.  A finite double is modelled by the rational it denotes and every
arithmetic operation by the exact rational operation followed by `fl`, the
rounding to the nearest double, ties to even.  `fl` covers the normal and the
subnormal range; overflow to `Infinity` (magnitudes from `2^1024`) is not
modelled and cannot occur in the computations below, whose values stay under
`2^14`. -/

/-- Rounding of a rational to the nearest integer, ties to the even one. -/
def roundHalfEven (q : ℚ) : ℤ :=
  let f := ⌊q⌋
  let d := q - f
  if d < 1 / 2 then f else if 1 / 2 < d then f + 1 else if f % 2 = 0 then f else f + 1

/-- The binary exponent used to round `x`: the exponent of its binade, and
`-1022` below the normal range. -/
def expo (x : ℚ) : ℤ := max (Int.log 2 |x|) (-1022)

/-- The spacing of the doubles around a non-zero `x` (53 significant bits). -/
def ulp (x : ℚ) : ℚ := (2 : ℚ) ^ (expo x - 52)

/-- Rounding to the nearest double, ties to even. -/
def fl (x : ℚ) : ℚ := roundHalfEven (x / ulp x) * ulp x

/-- The rational `x` is (the value of) a double. -/
def isDouble (x : ℚ) : Prop := fl x = x

instance (x : ℚ) : Decidable (isDouble x) := by unfold isDouble; infer_instance

/-- `Number.prototype.toString` on a non-negative integer below `10^21`. -/
def numToString (n : Nat) : String := Nat.repr n

/-- The decimal rendering of `n` hundredths used by `toFixed(2)`: the digits of
`n`, padded on the left with zeros to three digits, with a point before the
last two. -/
def renderHundredths (n : Nat) : String :=
  let m := (Nat.repr n).toList
  let m := List.replicate (3 - m.length) '0' ++ m
  String.mk (m.take (m.length - 2) ++ '.' :: m.drop (m.length - 2))

/-- The integer `n` chosen by `toFixed(2)` for a non-negative double `x`: the
one for which `n / 100 - x` is closest to zero, the larger one on a tie. -/
def hundredths (x : ℚ) : Nat := ⌊x * 100 + 1 / 2⌋₊

/-- `x.toFixed(2)` for a non-negative double `x` below `10^21`. -/
def toFixed2 (x : ℚ) : String := renderHundredths (hundredths x)

/-! ## `src/routes/auth.js` -/

/-- `generateOTP`, with the draw `r` of `Math.random()` as an argument:
`Math.floor(1000 + r * 9000).toString()`. -/
def generateOTP (r : ℚ) : String :=
  numToString ⌊fl (1000 + fl (r * 9000))⌋₊

/-- `Model.findOne(filter)`: the first document satisfying the filter, with
its `_id`. -/
def findOne {α : Type} (p : α → Bool) : List α → Option (Nat × α)
  | [] => none
  | a :: l => if p a then some (0, a) else (findOne p l).map (fun r => (r.1 + 1, r.2))

/-- The filter `{ phoneNumber }`. -/
def hasPhone {Num : Type} (p : String) (u : User Num) : Bool := decide (u.phoneNumber = p)

/-- The user summary sent in the answers of `auth.js`. -/
structure UserInfo (Num : Type) where
  id : Nat
  phoneNumber : String
  fullName : String
  userType : UserType
  landArea : Option Num
deriving DecidableEq

/-- The body of `POST /auth/register-farmer`. -/
structure RegisterReq (Num : Type) where
  phoneNumber : Option String
  fullName : Option String
  landArea : Option Num
  email : Option String

/-- The 201 answer of `register-farmer`. -/
structure RegisterBody (Num : Type) where
  userId : Nat
  token : ReqUser
  otp : String
  otpExpiry : Nat
  user : UserInfo Num
deriving DecidableEq

/-- The 200 answer of `verify-otp`. -/
structure VerifyBody (Num : Type) where
  token : ReqUser
  user : UserInfo Num
deriving DecidableEq

/-- The 200 answer of `request-otp`. -/
structure RequestOtpBody where
  otp : String
  otpExpiry : Nat
deriving DecidableEq

/-- The validity of an issued code: `5 * 60 * 1000` milliseconds. -/
def otpLifetime : Nat := 5 * 60 * 1000

/-- `save()` of a new `User`: schema validation, then the unique index on
`phoneNumber`. -/
def canInsertUser {Num : Type} (db : Store Num) (u : User Num) : Bool :=
  validateUser u && (findOne (hasPhone u.phoneNumber) db.users).isNone

/-- `POST /auth/register-farmer`; `now` is the clock and `r` the random draw.
The look-up uses the phone number as sent; the stored one went through the
`trim` setter of the schema. -/
def registerFarmer {Num : Type} [Zero Num] [DecidableEq Num] (db : Store Num)
    (req : RegisterReq Num) (now : Nat) (r : ℚ) : Response (RegisterBody Num) × Store Num :=
  if !truthyStr req.phoneNumber || !truthyStr req.fullName || !truthyNum req.landArea then
    ({ status := 400, message := "Phone, name, and land area are required", body := none }, db)
  else
    let phone := req.phoneNumber.getD ""
    match findOne (hasPhone phone) db.users with
    | some _ => ({ status := 400, message := "Phone number already registered", body := none }, db)
    | none =>
      let otp := generateOTP r
      let otpExpiry := now + otpLifetime
      let user : User Num :=
        { phoneNumber := jsTrim phone
          fullName := req.fullName.getD ""
          userType := UserType.farmer
          email := req.email
          landArea := req.landArea
          otp := some { code := otp, expiresAt := otpExpiry, attempts := 0 }
          isVerified := true
          createdAt := now
          updatedAt := now }
      if canInsertUser db user then
        let id := db.users.length
        ({ status := 201, message := "Registration successful. You are now logged in.",
           body := some { userId := id
                          token := { userId := id, phoneNumber := user.phoneNumber,
                                     userType := user.userType }
                          otp := otp
                          otpExpiry := otpExpiry
                          user := { id := id, phoneNumber := user.phoneNumber,
                                    fullName := user.fullName, userType := user.userType,
                                    landArea := user.landArea } } },
         { db with users := db.users ++ [user] })
      else (serverError, db)

/-- `POST /auth/verify-otp`. -/
def verifyOtp {Num : Type} (db : Store Num) (phoneNumber otp : Option String) (now : Nat) :
    Response (VerifyBody Num) × Store Num :=
  if !truthyStr phoneNumber || !truthyStr otp then
    ({ status := 400, message := "Phone number and OTP are required", body := none }, db)
  else
    match findOne (hasPhone (phoneNumber.getD "")) db.users with
    | none => ({ status := 404, message := "User not found", body := none }, db)
    | some (id, user) =>
      match user.otp with
      | none =>
        ({ status := 400, message := "OTP expired. Please request a new one.", body := none }, db)
      | some env =>
        if now > env.expiresAt then
          ({ status := 400, message := "OTP expired. Please request a new one.", body := none },
           db)
        else if env.attempts ≥ 3 then
          ({ status := 400, message := "Too many failed attempts. Please request a new OTP.",
             body := none }, db)
        else if env.code ≠ otp.getD "" then
          let user1 : User Num :=
            { user with otp := some { env with attempts := env.attempts + 1 } }
          ({ status := 400, message := "Invalid OTP", body := none },
           { db with users := db.users.set id user1 })
        else
          let user1 : User Num :=
            { user with isVerified := true
                        otp := some { code := "", expiresAt := now, attempts := 0 } }
          ({ status := 200, message := "Login successful",
             body := some { token := { userId := id, phoneNumber := user1.phoneNumber,
                                       userType := user1.userType }
                            user := { id := id, phoneNumber := user1.phoneNumber,
                                      fullName := user1.fullName, userType := user1.userType,
                                      landArea := user1.landArea } } },
           { db with users := db.users.set id user1 })

/-- `POST /auth/request-otp`. -/
def requestOtp {Num : Type} (db : Store Num) (phoneNumber : Option String) (now : Nat) (r : ℚ) :
    Response RequestOtpBody × Store Num :=
  if !truthyStr phoneNumber then
    ({ status := 400, message := "Phone number is required", body := none }, db)
  else
    match findOne (hasPhone (phoneNumber.getD "")) db.users with
    | none => ({ status := 404, message := "Phone number not registered", body := none }, db)
    | some (id, user) =>
      let otp := generateOTP r
      let otpExpiry := now + otpLifetime
      let user1 : User Num :=
        { user with otp := some { code := otp, expiresAt := otpExpiry, attempts := 0 } }
      ({ status := 200, message := "New OTP sent to your phone",
         body := some { otp := otp, otpExpiry := otpExpiry } },
       { db with users := db.users.set id user1 })

/-- The constant `ADMIN_PHONE`. -/
def ADMIN_PHONE : String := "25078815000"

/-- The constant `ADMIN_OTP`. -/
def ADMIN_OTP : String := "0001"

/-- The 200 answer of `admin-login`. -/
structure AdminLoginBody where
  token : ReqUser
  id : Nat
  phoneNumber : String
  fullName : String
deriving DecidableEq

/-- `POST /auth/admin-login`; the admin record is created on the first login,
without land area and without a code. -/
def adminLogin {Num : Type} (db : Store Num) (phoneNumber otp : Option String) (now : Nat) :
    Response AdminLoginBody × Store Num :=
  if phoneNumber ≠ some ADMIN_PHONE ∨ otp ≠ some ADMIN_OTP then
    ({ status := 401, message := "Invalid credentials", body := none }, db)
  else
    match findOne (hasPhone ADMIN_PHONE) db.users with
    | some (id, admin) =>
      ({ status := 200, message := "Admin login successful",
         body := some { token := { userId := id, phoneNumber := admin.phoneNumber,
                                   userType := UserType.admin }
                        id := id, phoneNumber := admin.phoneNumber,
                        fullName := admin.fullName } }, db)
    | none =>
      let admin : User Num :=
        { phoneNumber := jsTrim ADMIN_PHONE
          fullName := "System Admin"
          userType := UserType.admin
          email := none
          landArea := none
          otp := none
          isVerified := true
          createdAt := now
          updatedAt := now }
      if canInsertUser db admin then
        let id := db.users.length
        ({ status := 200, message := "Admin login successful",
           body := some { token := { userId := id, phoneNumber := admin.phoneNumber,
                                     userType := UserType.admin }
                          id := id, phoneNumber := admin.phoneNumber,
                          fullName := admin.fullName } },
         { db with users := db.users ++ [admin] })
      else (serverError, db)

/-! ## `src/routes/admin.js` -/

/-- The answer of `verifyAdmin` to a caller who is not an admin. -/
def adminsOnly {β : Type} : Response β :=
  { status := 403, message := "Access denied. Admins only.", body := none }

/-- The `order` object of the answer of `approve-order`. -/
structure ApproveBody where
  id : Nat
  status : OrderStatus
  approvedAt : Option Nat
deriving DecidableEq

/-- The `order` object of the answer of `decline-order`. -/
structure DeclineBody where
  id : Nat
  status : OrderStatus
  remarks : String
deriving DecidableEq

/-- The update document of `findByIdAndUpdate` in the two transition
handlers. -/
def applyTransition {Num : Type} (o : Order Num) (status : OrderStatus) (remarks : String)
    (adminId now : Nat) : Order Num :=
  { o with status := status, remarks := remarks, approvedBy := some adminId,
           approvedAt := some now }

/-- `POST /admin/approve-order/:orderId`; `remarks` defaults to `''`. -/
def approveOrder {Num : Type} (db : Store Num) (reqUser : ReqUser) (orderId : Nat)
    (remarks : Option String) (now : Nat) : Response ApproveBody × Store Num :=
  if reqUser.userType ≠ UserType.admin then (adminsOnly, db)
  else
    let remarks := remarks.getD ""
    match db.orders[orderId]? with
    | none => ({ status := 404, message := "Order not found", body := none }, db)
    | some o =>
      let order := applyTransition o OrderStatus.approved remarks reqUser.userId now
      ({ status := 200, message := "Order approved successfully",
         body := some { id := orderId, status := order.status,
                        approvedAt := order.approvedAt } },
       { db with orders := db.orders.set orderId order })

/-- `POST /admin/decline-order/:orderId`; `remarks` defaults to `''` and must
be truthy. -/
def declineOrder {Num : Type} (db : Store Num) (reqUser : ReqUser) (orderId : Nat)
    (remarks : Option String) (now : Nat) : Response DeclineBody × Store Num :=
  if reqUser.userType ≠ UserType.admin then (adminsOnly, db)
  else
    let remarks := remarks.getD ""
    if remarks = "" then
      ({ status := 400, message := "Remarks are required for declining an order",
         body := none }, db)
    else
      match db.orders[orderId]? with
      | none => ({ status := 404, message := "Order not found", body := none }, db)
      | some o =>
        let order := applyTransition o OrderStatus.declined remarks reqUser.userId now
        ({ status := 200, message := "Order declined successfully",
           body := some { id := orderId, status := order.status, remarks := order.remarks } },
         { db with orders := db.orders.set orderId order })

/-- `Order.countDocuments({ status })`. -/
def countStatus {Num : Type} (db : Store Num) (s : OrderStatus) : Nat :=
  db.orders.countP (fun o => decide (o.status = s))

/-- The rate expression of the metrics handler:
`total > 0 ? ((count / total) * 100).toFixed(2) : '0.00'`, on doubles (the
counts themselves are exact, being below `2^53`). -/
def rate (count total : Nat) : String :=
  if total > 0 then toFixed2 (fl (fl ((count : ℚ) / (total : ℚ)) * 100)) else "0.00"

/-- The `metrics` object of `GET /admin/metrics`. -/
structure Metrics where
  totalOrders : Nat
  approvedOrders : Nat
  declinedOrders : Nat
  pendingOrders : Nat
  weeklyOrders : Nat
  approvalRate : String
  declinedRate : String
  pendingRate : String
deriving DecidableEq

/-- `GET /admin/metrics`. -/
def getMetrics {Num : Type} (db : Store Num) (reqUser : ReqUser) (now : Nat) :
    Response Metrics :=
  if reqUser.userType ≠ UserType.admin then adminsOnly
  else
    let totalOrders := db.orders.length
    let approvedOrders := countStatus db OrderStatus.approved
    let declinedOrders := countStatus db OrderStatus.declined
    let pendingOrders := countStatus db OrderStatus.pending
    let weekAgo : Int := (now : Int) - 7 * 24 * 60 * 60 * 1000
    let weeklyOrders := db.orders.countP (fun o => decide (weekAgo ≤ (o.createdAt : Int)))
    { status := 200, message := "",
      body := some { totalOrders := totalOrders
                     approvedOrders := approvedOrders
                     declinedOrders := declinedOrders
                     pendingOrders := pendingOrders
                     weeklyOrders := weeklyOrders
                     approvalRate := rate approvedOrders totalOrders
                     declinedRate := rate declinedOrders totalOrders
                     pendingRate := rate pendingOrders totalOrders } }

/-- The body of `POST /admin/fertilizers`. -/
structure CreateFertilizerReq (Num : Type) where
  name : Option String
  ratePerHectare : Option Num
  unit : Option String
  description : Option String

/-- The body of `PUT /admin/fertilizers/:fertilizerId`. -/
structure UpdateFertilizerReq (Num : Type) where
  ratePerHectare : Option Num
  description : Option String
  isActive : Option Bool

/-- The `fertilizer` object of the answers of the two fertilizer handlers. -/
structure FertilizerBody (Num : Type) where
  id : Nat
  name : String
  ratePerHectare : Num
  unit : String
  isActive : Bool
deriving DecidableEq

/-- The filter `{ name }`. -/
def hasName {Num : Type} (n : String) (f : Fertilizer Num) : Bool := decide (f.name = n)

/-- `save()` of a new `Fertilizer`: schema validation, then the unique index
on `name`. -/
def canInsertFertilizer {Num : Type} (db : Store Num) (f : Fertilizer Num) : Bool :=
  validateFertilizer f && (findOne (hasName f.name) db.fertilizers).isNone

/-- `POST /admin/fertilizers`; `unit` defaults to `'kg'`, `description` to
`''`. -/
def createFertilizer {Num : Type} [Zero Num] [DecidableEq Num] (db : Store Num)
    (reqUser : ReqUser) (req : CreateFertilizerReq Num) (now : Nat) :
    Response (FertilizerBody Num) × Store Num :=
  if reqUser.userType ≠ UserType.admin then (adminsOnly, db)
  else if !truthyStr req.name || !truthyNum req.ratePerHectare then
    ({ status := 400, message := "Name and rate are required", body := none }, db)
  else
    let name := req.name.getD ""
    match findOne (hasName name) db.fertilizers with
    | some _ => ({ status := 400, message := "Fertilizer already exists", body := none }, db)
    | none =>
      let fertilizer : Fertilizer Num :=
        { name := name
          ratePerHectare := req.ratePerHectare.getD 0
          unit := req.unit.getD "kg"
          description := req.description.getD ""
          isActive := true
          updatedByAdmin := some reqUser.userId
          updatedAt := now
          createdAt := now }
      if canInsertFertilizer db fertilizer then
        ({ status := 201, message := "Fertilizer added successfully",
           body := some { id := db.fertilizers.length
                          name := fertilizer.name
                          ratePerHectare := fertilizer.ratePerHectare
                          unit := fertilizer.unit
                          isActive := fertilizer.isActive } },
         { db with fertilizers := db.fertilizers ++ [fertilizer] })
      else (serverError, db)

/-- The update document of `PUT /admin/fertilizers/:fertilizerId`: the rate
when it is truthy, the description and the active flag when they are defined,
and always the acting admin and the time. -/
def applyFertilizerUpdate {Num : Type} [Zero Num] [DecidableEq Num] (f : Fertilizer Num)
    (req : UpdateFertilizerReq Num) (adminId now : Nat) : Fertilizer Num :=
  { f with ratePerHectare := if truthyNum req.ratePerHectare then
                               req.ratePerHectare.getD f.ratePerHectare
                             else f.ratePerHectare
           description := req.description.getD f.description
           isActive := req.isActive.getD f.isActive
           updatedByAdmin := some adminId
           updatedAt := now }

/-- `PUT /admin/fertilizers/:fertilizerId`. -/
def updateFertilizer {Num : Type} [Zero Num] [DecidableEq Num] (db : Store Num)
    (reqUser : ReqUser) (fertilizerId : Nat) (req : UpdateFertilizerReq Num) (now : Nat) :
    Response (FertilizerBody Num) × Store Num :=
  if reqUser.userType ≠ UserType.admin then (adminsOnly, db)
  else
    match db.fertilizers[fertilizerId]? with
    | none => ({ status := 404, message := "Fertilizer not found", body := none }, db)
    | some f =>
      let fertilizer := applyFertilizerUpdate f req reqUser.userId now
      ({ status := 200, message := "Fertilizer updated successfully",
         body := some { id := fertilizerId
                        name := fertilizer.name
                        ratePerHectare := fertilizer.ratePerHectare
                        unit := fertilizer.unit
                        isActive := fertilizer.isActive } },
       { db with fertilizers := db.fertilizers.set fertilizerId fertilizer })

/-! ## The backend as a transition system -/

/-- One state-changing request, with the clock reading and the random draw it
consumes. -/
inductive Action (Num : Type) where
  | registerFarmer (req : RegisterReq Num) (now : Nat) (r : ℚ)
  | verifyOtp (phoneNumber otp : Option String) (now : Nat)
  | requestOtp (phoneNumber : Option String) (now : Nat) (r : ℚ)
  | adminLogin (phoneNumber otp : Option String) (now : Nat)
  | submitOrder (reqUser : ReqUser) (fertilizerId : Nat) (now : Nat)
  | approveOrder (reqUser : ReqUser) (orderId : Nat) (remarks : Option String) (now : Nat)
  | declineOrder (reqUser : ReqUser) (orderId : Nat) (remarks : Option String) (now : Nat)
  | createFertilizer (reqUser : ReqUser) (req : CreateFertilizerReq Num) (now : Nat)
  | updateFertilizer (reqUser : ReqUser) (fertilizerId : Nat) (req : UpdateFertilizerReq Num)
      (now : Nat)

/-- The database after one request. -/
def step {Num : Type} [Mul Num] [Zero Num] [DecidableEq Num] (db : Store Num) :
    Action Num → Store Num
  | Action.registerFarmer req now r => (registerFarmer db req now r).2
  | Action.verifyOtp p o now => (verifyOtp db p o now).2
  | Action.requestOtp p now r => (requestOtp db p now r).2
  | Action.adminLogin p o now => (adminLogin db p o now).2
  | Action.submitOrder u f now => (submitOrder db u f now).2
  | Action.approveOrder u i rem now => (approveOrder db u i rem now).2
  | Action.declineOrder u i rem now => (declineOrder db u i rem now).2
  | Action.createFertilizer u req now => (createFertilizer db u req now).2
  | Action.updateFertilizer u i req now => (updateFertilizer db u i req now).2

/-- The database after a sequence of requests. -/
def run {Num : Type} [Mul Num] [Zero Num] [DecidableEq Num] (db : Store Num)
    (acts : List (Action Num)) : Store Num :=
  acts.foldl step db

/-- The empty database. -/
def emptyStore {Num : Type} : Store Num := { users := [], fertilizers := [], orders := [] }

/-! ## Invariants and sample data -/

/-- The order invariant of the data model: the stored quantity is the product
of the stored land area and the stored rate. -/
def OrdersConsistent {Num : Type} [Mul Num] (db : Store Num) : Prop :=
  ∀ o ∈ db.orders, o.quantityRequired = o.landArea * o.ratePerUnit

/-- A registered farmer with 5/2 hectares. -/
def sampleFarmer : User ℚ :=
  { phoneNumber := "0788123456", fullName := "Amina", userType := UserType.farmer,
    email := none, landArea := some (5 / 2),
    otp := some { code := "4821", expiresAt := 300000, attempts := 0 },
    isVerified := true, createdAt := 0, updatedAt := 0 }

/-- A fertilizer with rate 40 per hectare. -/
def sampleFertilizer : Fertilizer ℚ :=
  { name := "Urea", ratePerHectare := 40, unit := "kg", description := "", isActive := true,
    updatedByAdmin := some 1, updatedAt := 0, createdAt := 0 }

/-- A database with one farmer, one fertilizer and no order. -/
def sampleStore : Store ℚ :=
  { users := [sampleFarmer], fertilizers := [sampleFertilizer], orders := [] }

/-- The token payload of the sample farmer. -/
def farmerToken : ReqUser := { userId := 0, phoneNumber := "0788123456", userType := UserType.farmer }

/-- The token payload of an admin. -/
def adminToken : ReqUser := { userId := 1, phoneNumber := "25078815000", userType := UserType.admin }

/-- The order of the sample farmer for the sample fertilizer: 5/2 ha at 40 per
ha, quantity 100. -/
def sampleOrder : Order ℚ :=
  { farmerId := 0, farmerName := "Amina", landArea := 5 / 2, fertilizerId := 0,
    fertilizerName := "Urea", ratePerUnit := 40, quantityRequired := 100,
    status := OrderStatus.pending, remarks := "", approvedBy := none, approvedAt := none,
    createdAt := 1000, updatedAt := 1000 }

/-- The sample database after that order was submitted. -/
def sampleStoreWithOrder : Store ℚ := { sampleStore with orders := [sampleOrder] }

/-- A rate edit of the sample fertilizer (40 to 55) followed by the approval
of the sample order. -/
def sampleRateEdit : List (Action ℚ) :=
  [Action.updateFertilizer adminToken 0
     { ratePerHectare := some 55, description := none, isActive := none } 2000,
   Action.approveOrder adminToken 0 none 3000]

/-- A series of `verify-otp` calls for one phone number, each with the code it
submits and the time at which it is made. -/
def verifyCalls {Num : Type} (db : Store Num) (phone : String) :
    List (String × Nat) → Store Num
  | [] => db
  | c :: cs => verifyCalls (verifyOtp db (some phone) (some c.1) c.2).2 phone cs

/-- The two answers of `verify-otp` named by the claims. -/
def otpExpired {β : Type} : Response β :=
  { status := 400, message := "OTP expired. Please request a new one.", body := none }

/-- The answer of `verify-otp` once three mismatches were counted. -/
def attemptsExhausted {β : Type} : Response β :=
  { status := 400, message := "Too many failed attempts. Please request a new OTP.",
    body := none }

/-- The answer of `verify-otp` to a wrong code. -/
def invalidOtp {β : Type} : Response β :=
  { status := 400, message := "Invalid OTP", body := none }

/-- The user record with the attempt counter of its envelope set to `n`. -/
def withAttempts {Num : Type} (user : User Num) (env : OtpEnvelope) (n : Nat) : User Num :=
  { user with otp := some { env with attempts := n } }

/-- The user record written by a successful `verify-otp` at time `now`. -/
def consumeOtp {Num : Type} (user : User Num) (now : Nat) : User Num :=
  { user with isVerified := true, otp := some { code := "", expiresAt := now, attempts := 0 } }

/-- The 200 answer of `verify-otp` for the user `user` with `_id` `id`. -/
def loginSuccessful {Num : Type} (id : Nat) (user : User Num) : Response (VerifyBody Num) :=
  { status := 200, message := "Login successful",
    body := some { token := { userId := id, phoneNumber := user.phoneNumber,
                              userType := user.userType }
                   user := { id := id, phoneNumber := user.phoneNumber,
                             fullName := user.fullName, userType := user.userType,
                             landArea := user.landArea } } }

/-- Three wrong codes submitted for the sample farmer before the expiry. -/
def sampleWrongCodes : List (String × Nat) := [("0000", 10), ("1111", 20), ("2222", 30)]

/-- The request `a` is a `request-otp` for the phone number `p`. -/
def requestsOtpFor {Num : Type} (p : String) : Action Num → Bool
  | Action.requestOtp q _ _ => decide (q = some p)
  | _ => false

/-- The phone numbers of the stored users, in `_id` order. -/
def phones {Num : Type} (db : Store Num) : List String := db.users.map (fun u => u.phoneNumber)

/-- The sample order after it was declined by the admin. -/
def sampleDeclined : Order ℚ :=
  { sampleOrder with status := OrderStatus.declined, remarks := "out of stock",
                     approvedBy := some 1, approvedAt := some 2000 }

/-- The sample database holding the declined order. -/
def sampleDeclinedStore : Store ℚ := { sampleStore with orders := [sampleDeclined] }

/-- The answer of `decline-order` to missing or empty remarks. -/
def remarksRequired {β : Type} : Response β :=
  { status := 400, message := "Remarks are required for declining an order", body := none }

/-- A second registration with the phone number of the sample farmer. -/
def sampleDuplicate : RegisterReq ℚ :=
  { phoneNumber := some "0788123456", fullName := some "Bosco", landArea := some 7,
    email := none }

/-- The answer of `register-farmer` to a phone number that is already
stored. -/
def alreadyRegistered {β : Type} : Response β :=
  { status := 400, message := "Phone number already registered", body := none }

/-- The answer of `register-farmer` to a request without phone, name or land
area. -/
def registrationIncomplete {β : Type} : Response β :=
  { status := 400, message := "Phone, name, and land area are required", body := none }

/-- The user document built by `register-farmer`. -/
def newFarmer {Num : Type} (req : RegisterReq Num) (now : Nat) (r : ℚ) : User Num :=
  { phoneNumber := jsTrim (req.phoneNumber.getD "")
    fullName := req.fullName.getD ""
    userType := UserType.farmer
    email := req.email
    landArea := req.landArea
    otp := some { code := generateOTP r, expiresAt := now + otpLifetime, attempts := 0 }
    isVerified := true
    createdAt := now
    updatedAt := now }

/-- The sample order after its approval. -/
def sampleApproved : Order ℚ :=
  { sampleOrder with status := OrderStatus.approved, approvedBy := some 1,
                     approvedAt := some 2000 }

/-- A database with 160 orders, 23 of them approved and 137 pending. -/
def metricsStore : Store ℚ :=
  { users := [], fertilizers := [],
    orders := List.replicate 23 sampleApproved ++ List.replicate 137 sampleOrder }

/-- The string `s` is the two-decimal rendering of a number of hundredths that
is as close to the exact percentage `count / total * 100` as double arithmetic
allows: within `0.005 + 2.5e-14` of it, and within `0.005` (a nearest
hundredth) when `total` is at most `10^11`. -/
def IsRateOf (s : String) (count total : Nat) : Prop :=
  ∃ n : Nat, s = renderHundredths n ∧
    |(n : ℚ) / 100 - (count : ℚ) / (total : ℚ) * 100| ≤ 1 / 200 + 1 / (4 * 10 ^ 13) ∧
    (total ≤ 10 ^ 11 → |(n : ℚ) / 100 - (count : ℚ) / (total : ℚ) * 100| ≤ 1 / 200)

/-- Every stored user and fertilizer passes the validation of its schema. -/
def StoreValid {Num : Type} (db : Store Num) : Prop :=
  (∀ u ∈ db.users, validateUser u = true) ∧ (∀ f ∈ db.fertilizers, validateFertilizer f = true)

/-- A request to create a fertilizer with the negative rate -5. -/
def negativeRateReq : CreateFertilizerReq ℚ :=
  { name := some "Lime", ratePerHectare := some (-5), unit := none, description := none }

/-- A request to set the rate of a fertilizer to -3. -/
def negativeRateEdit : UpdateFertilizerReq ℚ :=
  { ratePerHectare := some (-3), description := none, isActive := none }

/-- The answer of `POST /admin/fertilizers` to a missing name or rate. -/
def nameAndRateRequired {β : Type} : Response β :=
  { status := 400, message := "Name and rate are required", body := none }

/-- The rate kept by `PUT /admin/fertilizers/:id`: the requested one when it
is a non-zero number, the stored one otherwise. -/
def updatedRate {Num : Type} [Zero Num] [DecidableEq Num] (stored : Num) : Option Num → Num
  | some x => if x = 0 then stored else x
  | none => stored

/-- The request `a` is a `POST /admin/fertilizers` or a
`PUT /admin/fertilizers/:id`. -/
def isFertilizerAction {Num : Type} : Action Num → Bool
  | Action.createFertilizer _ _ _ => true
  | Action.updateFertilizer _ _ _ _ => true
  | _ => false

/-- The admin creates a fertilizer with rate -5, then sets its rate to -3. -/
def negativeRateActions : List (Action ℚ) :=
  [Action.createFertilizer adminToken negativeRateReq 1000,
   Action.updateFertilizer adminToken 0 negativeRateEdit 2000]

theorem step_orders {Num : Type} [Mul Num] [Zero Num] [DecidableEq Num] (db : Store Num)
    (a : Action Num) :
    (step db a).orders = db.orders ∨
    (∃ o : Order Num, (step db a).orders = db.orders ++ [o] ∧ o.status = OrderStatus.pending ∧
      o.quantityRequired = o.landArea * o.ratePerUnit) ∨
    (∃ (i : Nat) (o : Order Num) (s : OrderStatus) (rem : String) (adm t : Nat),
      db.orders[i]? = some o ∧ (s = OrderStatus.approved ∨ s = OrderStatus.declined) ∧
      (step db a).orders = db.orders.set i (applyTransition o s rem adm t)) := by
  cases a with
  | registerFarmer req now r =>
    left; simp only [step, registerFarmer]; split
    · rfl
    · split
      · rfl
      · split <;> rfl
  | verifyOtp p o now =>
    left; simp only [step, verifyOtp]; split
    · rfl
    · split
      · rfl
      · split
        · rfl
        · split
          · rfl
          · split
            · rfl
            · split <;> rfl
  | requestOtp p now r =>
    left; simp only [step, requestOtp]; split
    · rfl
    · split <;> rfl
  | adminLogin p o now =>
    left; simp only [step, adminLogin]; split
    · rfl
    · split
      · rfl
      · split <;> rfl
  | submitOrder u f now =>
    simp only [step, submitOrder]; split
    · left; rfl
    · split
      · left; rfl
      · split
        · left; rfl
        · split
          · left; rfl
          · split
            · right; left; exact ⟨_, rfl, rfl, rfl⟩
            · left; rfl
  | approveOrder u i rem now =>
    simp only [step, approveOrder]; split
    · left; rfl
    · split
      · left; rfl
      · rename_i o h
        right; right; exact ⟨i, o, _, _, _, _, h, Or.inl rfl, rfl⟩
  | declineOrder u i rem now =>
    simp only [step, declineOrder]; split
    · left; rfl
    · split
      · left; rfl
      · split
        · left; rfl
        · rename_i o h
          right; right; exact ⟨i, o, _, _, _, _, h, Or.inr rfl, rfl⟩
  | createFertilizer u req now =>
    left; simp only [step, createFertilizer]; split
    · rfl
    · split
      · rfl
      · split
        · rfl
        · split <;> rfl
  | updateFertilizer u i req now =>
    left; simp only [step, updateFertilizer]; split
    · rfl
    · split <;> rfl

theorem run_cons {Num : Type} [Mul Num] [Zero Num] [DecidableEq Num] (db : Store Num)
    (a : Action Num) (acts : List (Action Num)) : run db (a :: acts) = run (step db a) acts :=
  rfl

theorem applyTransition_frozen {Num : Type} (o : Order Num) (s : OrderStatus) (rem : String)
    (adm t : Nat) :
    (applyTransition o s rem adm t).quantityRequired = o.quantityRequired ∧
    (applyTransition o s rem adm t).landArea = o.landArea ∧
    (applyTransition o s rem adm t).ratePerUnit = o.ratePerUnit :=
  ⟨rfl, rfl, rfl⟩

/-- One request keeps the three computed fields of every stored order. -/
theorem step_frozen {Num : Type} [Mul Num] [Zero Num] [DecidableEq Num] (db : Store Num)
    (a : Action Num) (i : Nat) (o : Order Num) (h : db.orders[i]? = some o) :
    ∃ o1, (step db a).orders[i]? = some o1 ∧ o1.quantityRequired = o.quantityRequired ∧
      o1.landArea = o.landArea ∧ o1.ratePerUnit = o.ratePerUnit := by
  have hi : i < db.orders.length := by
    rcases Nat.lt_or_ge i db.orders.length with hi | hi
    · exact hi
    · rw [List.getElem?_eq_none hi] at h; cases h
  rcases step_orders db a with h1 | ⟨o2, h1, -, -⟩ | ⟨j, o2, s, rem, adm, t, hj, -, h1⟩
  · exact ⟨o, by rw [h1]; exact h, rfl, rfl, rfl⟩
  · exact ⟨o, by rw [h1, List.getElem?_append_left hi]; exact h, rfl, rfl, rfl⟩
  · by_cases hji : j = i
    · subst hji
      rw [h] at hj
      cases hj
      exact ⟨applyTransition o s rem adm t, by rw [h1, List.getElem?_set_self hi], rfl, rfl, rfl⟩
    · exact ⟨o, by rw [h1, List.getElem?_set_ne hji]; exact h, rfl, rfl, rfl⟩

/-- One request preserves the order invariant. -/
theorem step_consistent {Num : Type} [Mul Num] [Zero Num] [DecidableEq Num] (db : Store Num)
    (a : Action Num) (h : OrdersConsistent db) : OrdersConsistent (step db a) := by
  intro o1 ho1
  rcases step_orders db a with h1 | ⟨o2, h1, -, hc⟩ | ⟨j, o2, s, rem, adm, t, hj, -, h1⟩
  · exact h o1 (by rw [← h1]; exact ho1)
  · rw [h1] at ho1
    rcases List.mem_append.mp ho1 with hm | hm
    · exact h o1 hm
    · rw [List.mem_singleton] at hm; rw [hm]; exact hc
  · rw [h1] at ho1
    rcases List.mem_or_eq_of_mem_set ho1 with hm | hm
    · exact h o1 hm
    · have := h o2 (List.getElem?_mem hj)
      rw [hm]; exact this

/-- C1: for an existing (schema-valid) farmer and an existing fertilizer,
`submit-order` appends exactly one order to the collection; its quantity is
`landArea * ratePerHectare`, its land area, farmer name, fertilizer name and
rate are copies of the farmer's and the fertilizer's fields, its status is
`pending`, and the quantity of the 201 answer is the stored quantity. -/
theorem submitOrder_snapshot {Num : Type} [Mul Num] (db : Store Num) (reqUser : ReqUser)
    (fertilizerId now : Nat) (farmer : User Num) (fertilizer : Fertilizer Num)
    (hrole : reqUser.userType = UserType.farmer)
    (hfarmer : db.users[reqUser.userId]? = some farmer)
    (hvalid : validateUser farmer = true) (hkind : farmer.userType = UserType.farmer)
    (hfert : db.fertilizers[fertilizerId]? = some fertilizer)
    (hfvalid : validateFertilizer fertilizer = true) :
    ∃ (area : Num) (order : Order Num),
      farmer.landArea = some area ∧
      (submitOrder db reqUser fertilizerId now).2 = { db with orders := db.orders ++ [order] } ∧
      order.quantityRequired = area * fertilizer.ratePerHectare ∧
      order.landArea = area ∧ order.farmerName = farmer.fullName ∧
      order.fertilizerName = fertilizer.name ∧
      order.ratePerUnit = fertilizer.ratePerHectare ∧
      order.status = OrderStatus.pending ∧
      (submitOrder db reqUser fertilizerId now).1.status = 201 ∧
      (submitOrder db reqUser fertilizerId now).1.body.map (fun b => b.quantity) =
        some order.quantityRequired := by
  simp only [validateUser, Bool.and_eq_true, Bool.or_eq_true, decide_eq_true_eq] at hvalid
  obtain ⟨⟨⟨-, -⟩, hname⟩, harea⟩ := hvalid
  have harea : farmer.landArea.isSome = true := by
    rcases harea with h | h
    · exact absurd hkind h
    · exact h
  obtain ⟨area, harea⟩ := Option.isSome_iff_exists.mp harea
  simp only [validateFertilizer, decide_eq_true_eq] at hfvalid
  refine ⟨area,
    { farmerId := reqUser.userId, farmerName := farmer.fullName, landArea := area,
      fertilizerId := fertilizerId, fertilizerName := fertilizer.name,
      ratePerUnit := fertilizer.ratePerHectare,
      quantityRequired := area * fertilizer.ratePerHectare, status := OrderStatus.pending,
      remarks := "", approvedBy := none, approvedAt := none, createdAt := now,
      updatedAt := now }, harea, ?_⟩
  simp only [submitOrder, hrole, hfarmer, hfert, harea, validateOrder, ne_eq, not_true_eq_false,
    if_false, hname, hfvalid, not_false_eq_true, decide_True, Bool.and_self, if_true,
    Option.map_some', and_self]

/-- Witness of C1: the sample farmer (5/2 ha) ordering the sample fertilizer
(40 per ha). -/
theorem submitOrder_snapshot_witness :
    ∃ (area : ℚ) (order : Order ℚ),
      sampleFarmer.landArea = some area ∧
      (submitOrder sampleStore farmerToken 0 1000).2 =
        { sampleStore with orders := sampleStore.orders ++ [order] } ∧
      order.quantityRequired = area * sampleFertilizer.ratePerHectare ∧
      order.landArea = area ∧ order.farmerName = sampleFarmer.fullName ∧
      order.fertilizerName = sampleFertilizer.name ∧
      order.ratePerUnit = sampleFertilizer.ratePerHectare ∧
      order.status = OrderStatus.pending ∧
      (submitOrder sampleStore farmerToken 0 1000).1.status = 201 ∧
      (submitOrder sampleStore farmerToken 0 1000).1.body.map (fun b => b.quantity) =
        some order.quantityRequired :=
  submitOrder_snapshot sampleStore farmerToken 0 1000 sampleFarmer sampleFertilizer rfl rfl
    (by decide) rfl rfl (by decide)

theorem run_frozen {Num : Type} [Mul Num] [Zero Num] [DecidableEq Num]
    (acts : List (Action Num)) :
    ∀ (db : Store Num) (i : Nat) (o : Order Num), db.orders[i]? = some o →
      ∃ o1, (run db acts).orders[i]? = some o1 ∧ o1.quantityRequired = o.quantityRequired ∧
        o1.landArea = o.landArea ∧ o1.ratePerUnit = o.ratePerUnit := by
  induction acts with
  | nil => intro db i o h; exact ⟨o, h, rfl, rfl, rfl⟩
  | cons a acts ih =>
    intro db i o h
    obtain ⟨o1, h1, q1, l1, r1⟩ := step_frozen db a i o h
    obtain ⟨o2, h2, q2, l2, r2⟩ := ih (step db a) i o1 h1
    exact ⟨o2, by rw [run_cons]; exact h2, q2.trans q1, l2.trans l1, r2.trans r1⟩

theorem run_consistent {Num : Type} [Mul Num] [Zero Num] [DecidableEq Num]
    (acts : List (Action Num)) :
    ∀ db : Store Num, OrdersConsistent db → OrdersConsistent (run db acts) := by
  induction acts with
  | nil => intro db h; exact h
  | cons a acts ih => intro db h; rw [run_cons]; exact ih _ (step_consistent db a h)

/-- C2: a fertilizer update leaves the order collection untouched; along any
sequence of requests every stored order keeps its `quantityRequired`,
`landArea` and `ratePerUnit`; and `quantityRequired = landArea * ratePerUnit`
holds for every order of every state reached from a state where it holds (the
empty database in particular). -/
theorem orders_frozen_under_rate_edits {Num : Type} [Mul Num] [Zero Num] [DecidableEq Num]
    (db : Store Num) (acts : List (Action Num)) (h : OrdersConsistent db) :
    (∀ (reqUser : ReqUser) (fertilizerId : Nat) (req : UpdateFertilizerReq Num) (now : Nat),
      (updateFertilizer db reqUser fertilizerId req now).2.orders = db.orders) ∧
    (∀ (i : Nat) (o : Order Num), db.orders[i]? = some o →
      ∃ o1, (run db acts).orders[i]? = some o1 ∧ o1.quantityRequired = o.quantityRequired ∧
        o1.landArea = o.landArea ∧ o1.ratePerUnit = o.ratePerUnit) ∧
    OrdersConsistent (run db acts) ∧
    OrdersConsistent (run (emptyStore : Store Num) acts) := by
  refine ⟨?_, run_frozen acts db, run_consistent acts db h, run_consistent acts _ ?_⟩
  · intro reqUser fertilizerId req now
    simp only [updateFertilizer]
    split
    · rfl
    · split <;> rfl
  · intro o ho
    simp [emptyStore] at ho

/-- Witness of C2: the sample order survives a rate edit of its fertilizer and
its approval. -/
theorem orders_frozen_under_rate_edits_witness :
    OrdersConsistent sampleStoreWithOrder ∧
    (∀ (i : Nat) (o : Order ℚ), sampleStoreWithOrder.orders[i]? = some o →
      ∃ o1, (run sampleStoreWithOrder sampleRateEdit).orders[i]? = some o1 ∧
        o1.quantityRequired = o.quantityRequired ∧
        o1.landArea = o.landArea ∧ o1.ratePerUnit = o.ratePerUnit) :=
  have h : OrdersConsistent sampleStoreWithOrder := by
    intro o ho
    simp only [sampleStoreWithOrder, List.mem_singleton] at ho
    subst ho
    norm_num [sampleOrder]
  ⟨h, (orders_frozen_under_rate_edits sampleStoreWithOrder sampleRateEdit h).2.1⟩

/-! ## Look-ups -/

theorem findOne_some {α : Type} (p : α → Bool) :
    ∀ (l : List α) (i : Nat) (a : α), findOne p l = some (i, a) →
      l[i]? = some a ∧ p a = true := by
  intro l
  induction l with
  | nil => intro i a h; simp [findOne] at h
  | cons b l ih =>
    intro i a h
    simp only [findOne] at h
    split at h
    · rename_i hb
      cases h
      exact ⟨by simp, hb⟩
    · cases hf : findOne p l with
      | none => rw [hf] at h; cases h
      | some r =>
        rw [hf] at h
        obtain ⟨j, c⟩ := r
        simp only [Option.map_some', Option.some.injEq, Prod.mk.injEq] at h
        obtain ⟨rfl, rfl⟩ := h
        obtain ⟨h1, h2⟩ := ih j c hf
        exact ⟨by simpa using h1, h2⟩

theorem findOne_eq_none {α : Type} (p : α → Bool) (l : List α) :
    findOne p l = none ↔ ∀ a ∈ l, p a = false := by
  induction l with
  | nil => simp [findOne]
  | cons b l ih =>
    simp only [findOne, List.mem_cons, forall_eq_or_imp]
    by_cases hb : p b = true
    · simp [hb]
    · simp only [hb, Bool.false_eq_true, if_false, Option.map_eq_none', ih]
      simp [Bool.not_eq_true _ ▸ hb]

/-- Replacing a document by one that answers the filter in the same way does
not change which position the look-up returns. -/
theorem findOne_set {α : Type} (p : α → Bool) :
    ∀ (l : List α) (j : Nat) (b b1 : α), l[j]? = some b → p b1 = p b →
      findOne p (l.set j b1) =
        (findOne p l).map (fun r => if r.1 = j then (j, b1) else r) := by
  intro l
  induction l with
  | nil => intro j b b1 h; simp at h
  | cons c l ih =>
    intro j b b1 h hp
    cases j with
    | zero =>
      simp only [List.getElem?_cons_zero, Option.some.injEq] at h
      subst h
      simp only [List.set_cons_zero, findOne, hp]
      split
      · simp
      · cases hf : findOne p l with
        | none => simp
        | some r => simp
    | succ j =>
      simp only [List.getElem?_cons_succ] at h
      simp only [List.set_cons_succ, findOne]
      split
      · simp
      · rw [ih j b b1 h hp]
        cases hf : findOne p l with
        | none => simp
        | some r =>
          simp only [Option.map_some', Option.some.injEq]
          by_cases hr : r.1 = j
          · simp [hr]
          · simp [hr]

theorem findOne_set_self {α : Type} (p : α → Bool) (l : List α) (i : Nat) (a a1 : α)
    (h : findOne p l = some (i, a)) (hp : p a1 = p a) :
    findOne p (l.set i a1) = some (i, a1) := by
  rw [findOne_set p l i a a1 (findOne_some p l i a h).1 hp, h]
  simp

/-- The four outcomes of `verify-otp` once the user and the envelope are
found. -/
theorem verifyOtp_found {Num : Type} (db : Store Num) (phone otp : String) (now id : Nat)
    (user : User Num) (env : OtpEnvelope) (hphone : phone ≠ "") (hotp : otp ≠ "")
    (hfind : findOne (hasPhone phone) db.users = some (id, user)) (henv : user.otp = some env) :
    verifyOtp db (some phone) (some otp) now =
      if now > env.expiresAt then (otpExpired, db)
      else if env.attempts ≥ 3 then (attemptsExhausted, db)
      else if env.code ≠ otp then
        (invalidOtp,
         { db with users := db.users.set id (withAttempts user env (env.attempts + 1)) })
      else
        (loginSuccessful id user, { db with users := db.users.set id (consumeOtp user now) }) := by
  simp only [verifyOtp, truthyStr, ne_eq, hphone, hotp, not_false_eq_true, decide_True,
    Bool.not_true, Bool.or_self, Bool.false_eq_true, if_false, Option.getD_some, hfind, henv,
    otpExpired, attemptsExhausted, invalidOtp, withAttempts, consumeOtp, loginSuccessful]

/-- The envelope after a series of wrong codes submitted before the expiry:
the counter grows by one per call and stops at three. -/
theorem verifyCalls_wrong {Num : Type} (phone : String) (id : Nat) (hphone : phone ≠ "") :
    ∀ (wrong : List (String × Nat)) (db : Store Num) (user : User Num) (env : OtpEnvelope),
      findOne (hasPhone phone) db.users = some (id, user) → user.otp = some env →
      env.attempts ≤ 3 →
      (∀ c ∈ wrong, c.1 ≠ "" ∧ c.1 ≠ env.code ∧ c.2 ≤ env.expiresAt) →
      findOne (hasPhone phone) (verifyCalls db phone wrong).users =
        some (id, withAttempts user env (min (env.attempts + wrong.length) 3)) := by
  intro wrong
  induction wrong with
  | nil =>
    intro db user env hfind henv hle _
    simp only [verifyCalls, List.length_nil, Nat.add_zero, Nat.min_eq_left hle]
    rw [hfind]
    cases user
    simp only at henv
    simp [henv, withAttempts]
  | cons c cs ih =>
    intro db user env hfind henv hle hw
    obtain ⟨hc1, hc2, hc3⟩ := hw c (List.mem_cons_self _ _)
    have hrest : ∀ d ∈ cs, d.1 ≠ "" ∧ d.1 ≠ env.code ∧ d.2 ≤ env.expiresAt :=
      fun d hd => hw d (List.mem_cons_of_mem _ hd)
    simp only [verifyCalls]
    rw [verifyOtp_found db phone c.1 c.2 id user env hphone hc1 hfind henv]
    rw [if_neg (Nat.not_lt.mpr hc3)]
    by_cases h3 : env.attempts ≥ 3
    · rw [if_pos h3]
      rw [ih db user env hfind henv hle hrest]
      have : env.attempts = 3 := Nat.le_antisymm hle h3
      simp [this]
    · rw [if_neg h3, if_pos (Ne.symm hc2)]
      have hset : findOne (hasPhone phone)
          (db.users.set id (withAttempts user env (env.attempts + 1))) =
          some (id, withAttempts user env (env.attempts + 1)) :=
        findOne_set_self _ _ _ _ _ hfind rfl
      have h4 := ih { db with users := db.users.set id (withAttempts user env (env.attempts + 1)) }
        (withAttempts user env (env.attempts + 1))
        { env with attempts := env.attempts + 1 } hset rfl (by simp only; omega) hrest
      rw [h4]
      have h5 : min (env.attempts + 1 + cs.length) 3 = min (env.attempts + (cs.length + 1)) 3 := by
        congr 1; omega
      simp only [List.length_cons, withAttempts, h5]

theorem attemptsExhausted_ne_invalidOtp {β : Type} :
    (attemptsExhausted : Response β) ≠ invalidOtp := by
  intro h
  have := congrArg Response.message h
  simp [attemptsExhausted, invalidOtp] at this

theorem attemptsExhausted_ne_loginSuccessful {Num : Type} (id : Nat) (user : User Num) :
    (attemptsExhausted : Response (VerifyBody Num)) ≠ loginSuccessful id user := by
  intro h
  have := congrArg Response.status h
  simp [attemptsExhausted, loginSuccessful] at this

/-- C3: for a user whose envelope is fresh (`attempts = 0`), after any series
of wrong codes submitted up to the expiry the counter equals the number of
mismatches capped at 3; the next call up to the expiry is answered 'Too many
failed attempts' exactly when three mismatches were made; before that the
stored code is still compared (the right code logs in, a wrong code is
'Invalid OTP'); from then on every call, with the right code too, is rejected
and the record no longer changes. -/
theorem verifyOtp_attempt_limit {Num : Type} (db : Store Num) (phone otp : String)
    (id now : Nat) (user : User Num) (env : OtpEnvelope) (wrong : List (String × Nat))
    (hphone : phone ≠ "")
    (hfind : findOne (hasPhone phone) db.users = some (id, user))
    (henv : user.otp = some env) (hfresh : env.attempts = 0)
    (hwrong : ∀ c ∈ wrong, c.1 ≠ "" ∧ c.1 ≠ env.code ∧ c.2 ≤ env.expiresAt)
    (hotp : otp ≠ "") (hnow : now ≤ env.expiresAt) :
    findOne (hasPhone phone) (verifyCalls db phone wrong).users =
      some (id, withAttempts user env (min wrong.length 3)) ∧
    ((verifyOtp (verifyCalls db phone wrong) (some phone) (some otp) now).1 = attemptsExhausted ↔
      3 ≤ wrong.length) ∧
    (wrong.length < 3 → otp = env.code →
      (verifyOtp (verifyCalls db phone wrong) (some phone) (some otp) now).1 =
        loginSuccessful id user) ∧
    (wrong.length < 3 → otp ≠ env.code →
      (verifyOtp (verifyCalls db phone wrong) (some phone) (some otp) now).1 = invalidOtp) ∧
    (3 ≤ wrong.length →
      verifyOtp (verifyCalls db phone wrong) (some phone) (some otp) now =
        (attemptsExhausted, verifyCalls db phone wrong)) := by
  have hf := verifyCalls_wrong phone id hphone wrong db user env hfind henv (by omega) hwrong
  rw [hfresh, Nat.zero_add] at hf
  have hv := verifyOtp_found (verifyCalls db phone wrong) phone otp now id
    (withAttempts user env (min wrong.length 3)) { env with attempts := min wrong.length 3 }
    hphone hotp hf rfl
  simp only [if_neg (Nat.not_lt.mpr hnow)] at hv
  refine ⟨hf, ?_, ?_, ?_, ?_⟩
  · rw [hv]
    constructor
    · intro h
      by_contra hlt
      have h3 : ¬ (min wrong.length 3 ≥ 3) := by omega
      rw [if_neg h3] at h
      by_cases hc : env.code ≠ otp
      · rw [if_pos hc] at h
        exact attemptsExhausted_ne_invalidOtp h.symm
      · rw [if_neg hc] at h
        exact attemptsExhausted_ne_loginSuccessful _ _ h.symm
    · intro h
      have h3 : min wrong.length 3 ≥ 3 := by omega
      rw [if_pos h3]
  · intro hlt hc
    have h3 : ¬ (min wrong.length 3 ≥ 3) := by omega
    rw [hv, if_neg h3, if_neg (by simp [hc])]
    rfl
  · intro hlt hc
    have h3 : ¬ (min wrong.length 3 ≥ 3) := by omega
    rw [hv, if_neg h3, if_pos (Ne.symm hc)]
  · intro h
    have h3 : min wrong.length 3 ≥ 3 := by omega
    rw [hv, if_pos h3]

/-- Witness of C3: three wrong codes for the sample farmer, then the right
code. -/
theorem verifyOtp_attempt_limit_witness :
    (verifyOtp (verifyCalls sampleStore "0788123456" sampleWrongCodes) (some "0788123456")
        (some "4821") 40).1 = attemptsExhausted ↔ 3 ≤ sampleWrongCodes.length :=
  (verifyOtp_attempt_limit sampleStore "0788123456" "4821" 0 40 sampleFarmer
    { code := "4821", expiresAt := 300000, attempts := 0 } sampleWrongCodes
    (by decide) rfl rfl rfl (by decide) (by decide) (by decide)).2.1

/-- C4 as stated fails at the boundary: a call made exactly at the expiry
instant with the stored code is not answered 'OTP expired'. -/
theorem verifyOtp_expiry_boundary_counterexample :
    ¬ ∀ (db : Store ℚ) (phone otp : String) (id now : Nat) (user : User ℚ)
        (env : OtpEnvelope), phone ≠ "" → otp ≠ "" →
        findOne (hasPhone phone) db.users = some (id, user) → user.otp = some env →
        now ≥ env.expiresAt →
        verifyOtp db (some phone) (some otp) now = (otpExpired, db) := by
  intro h
  have h1 := h sampleStore "0788123456" "4821" 0 300000 sampleFarmer
    { code := "4821", expiresAt := 300000, attempts := 0 } (by decide) (by decide) rfl rfl
    (Nat.le_refl _)
  rw [verifyOtp_found sampleStore "0788123456" "4821" 300000 0 sampleFarmer
    { code := "4821", expiresAt := 300000, attempts := 0 } (by decide) (by decide) rfl rfl] at h1
  have h2 := congrArg (fun x => x.1.status) h1
  simp [otpExpired, loginSuccessful] at h2

/-- C4, amended: a call made strictly after the stored expiry instant is
answered 400 'OTP expired' whatever the code and leaves the database
unchanged; a call made up to and including the expiry instant is never
answered 'OTP expired'. -/
theorem verifyOtp_expired {Num : Type} (db : Store Num) (phone otp : String) (id now : Nat)
    (user : User Num) (env : OtpEnvelope) (hphone : phone ≠ "") (hotp : otp ≠ "")
    (hfind : findOne (hasPhone phone) db.users = some (id, user)) (henv : user.otp = some env) :
    (env.expiresAt < now → verifyOtp db (some phone) (some otp) now = (otpExpired, db)) ∧
    (now ≤ env.expiresAt → (verifyOtp db (some phone) (some otp) now).1 ≠ otpExpired) := by
  rw [verifyOtp_found db phone otp now id user env hphone hotp hfind henv]
  constructor
  · intro h
    rw [if_pos h]
  · intro h
    rw [if_neg (Nat.not_lt.mpr h)]
    intro hc
    have hm := congrArg Response.message hc
    split at hm
    · simp [attemptsExhausted, otpExpired] at hm
    · split at hm
      · simp [invalidOtp, otpExpired] at hm
      · simp [loginSuccessful, otpExpired] at hm

/-- Witness of C4 (amended): one millisecond after the expiry of the sample
envelope. -/
theorem verifyOtp_expired_witness :
    verifyOtp sampleStore (some "0788123456") (some "4821") 300001 = (otpExpired, sampleStore) :=
  (verifyOtp_expired sampleStore "0788123456" "4821" 0 300001 sampleFarmer
    { code := "4821", expiresAt := 300000, attempts := 0 } (by decide) (by decide) rfl rfl).1
    (by decide)

/-! ## Effect of one request on the user collection -/

theorem hasPhone_eq {Num : Type} (p : String) (u : User Num) (h : hasPhone p u = true) :
    u.phoneNumber = p := by
  simpa [hasPhone] using h

/-- One request leaves the users as they are, appends one user whose phone
number was not stored yet, or rewrites one user keeping the phone number; in
the last case the request is a `request-otp` for that number, or the code of
the envelope is kept or emptied. -/
theorem step_users {Num : Type} [Mul Num] [Zero Num] [DecidableEq Num] (db : Store Num)
    (a : Action Num) :
    (step db a).users = db.users ∨
    (∃ u : User Num, (step db a).users = db.users ++ [u] ∧
      findOne (hasPhone u.phoneNumber) db.users = none) ∨
    (∃ (j : Nat) (u u1 : User Num), db.users[j]? = some u ∧
      (step db a).users = db.users.set j u1 ∧ u1.phoneNumber = u.phoneNumber ∧
      (requestsOtpFor u.phoneNumber a = true ∨
        ∃ e e1 : OtpEnvelope, u.otp = some e ∧ u1.otp = some e1 ∧
          (e1.code = e.code ∨ e1.code = ""))) := by
  cases a with
  | registerFarmer req now r =>
    simp only [step, registerFarmer]; split
    · left; rfl
    · split
      · left; rfl
      · split
        · rename_i hc
          simp only [canInsertUser, Bool.and_eq_true, Option.isNone_iff_eq_none] at hc
          right; left; exact ⟨_, rfl, hc.2⟩
        · left; rfl
  | verifyOtp p o now =>
    simp only [step, verifyOtp]; split
    · left; rfl
    · split
      · left; rfl
      · rename_i id user hfind
        have hget := (findOne_some _ _ _ _ hfind).1
        split
        · left; rfl
        · rename_i env henv
          split
          · left; rfl
          · split
            · left; rfl
            · split
              · right; right
                exact ⟨id, user, _, hget, rfl, rfl, Or.inr ⟨env, _, henv, rfl, Or.inl rfl⟩⟩
              · right; right
                exact ⟨id, user, _, hget, rfl, rfl, Or.inr ⟨env, _, henv, rfl, Or.inr rfl⟩⟩
  | requestOtp p now r =>
    simp only [step, requestOtp]; split
    · left; rfl
    · rename_i htruthy
      split
      · left; rfl
      · rename_i id user hfind
        obtain ⟨hget, hp⟩ := findOne_some _ _ _ _ hfind
        have hph := hasPhone_eq _ _ hp
        right; right
        refine ⟨id, user, _, hget, rfl, rfl, Or.inl ?_⟩
        cases p with
        | none => simp [truthyStr] at htruthy
        | some q =>
          simp only [Option.getD_some] at hph
          simp [requestsOtpFor, hph]
  | adminLogin p o now =>
    simp only [step, adminLogin]; split
    · left; rfl
    · split
      · left; rfl
      · split
        · rename_i hc
          simp only [canInsertUser, Bool.and_eq_true, Option.isNone_iff_eq_none] at hc
          right; left; exact ⟨_, rfl, hc.2⟩
        · left; rfl
  | submitOrder u f now =>
    left; simp only [step, submitOrder]; split
    · rfl
    · split
      · rfl
      · split
        · rfl
        · split
          · rfl
          · split <;> rfl
  | approveOrder u i rem now =>
    left; simp only [step, approveOrder]; split
    · rfl
    · split <;> rfl
  | declineOrder u i rem now =>
    left; simp only [step, declineOrder]; split
    · rfl
    · split
      · rfl
      · split <;> rfl
  | createFertilizer u req now =>
    left; simp only [step, createFertilizer]; split
    · rfl
    · split
      · rfl
      · split
        · rfl
        · split <;> rfl
  | updateFertilizer u i req now =>
    left; simp only [step, updateFertilizer]; split
    · rfl
    · split <;> rfl

theorem getElem?_lt_of_eq_some {α : Type} {l : List α} {i : Nat} {a : α} (h : l[i]? = some a) :
    i < l.length := by
  rcases Nat.lt_or_ge i l.length with hi | hi
  · exact hi
  · rw [List.getElem?_eq_none hi] at h; cases h

/-- C6 as stated fails: an approve call on a declined order changes its
status, remarks, approving admin and approval time. -/
theorem terminal_status_counterexample :
    ¬ ∀ (db : Store ℚ) (reqUser : ReqUser) (orderId : Nat) (remarks : Option String)
        (now : Nat) (o : Order ℚ), db.orders[orderId]? = some o →
        (o.status = OrderStatus.approved ∨ o.status = OrderStatus.declined) →
        ∃ o1, (approveOrder db reqUser orderId remarks now).2.orders[orderId]? = some o1 ∧
          o1.status = o.status ∧ o1.remarks = o.remarks ∧ o1.approvedBy = o.approvedBy ∧
          o1.approvedAt = o.approvedAt := by
  intro h
  obtain ⟨o1, h1, h2, -⟩ := h sampleDeclinedStore adminToken 0 none 5000 sampleDeclined rfl
    (Or.inr rfl)
  have h3 : (approveOrder sampleDeclinedStore adminToken 0 none 5000).2.orders[0]? =
      some (applyTransition sampleDeclined OrderStatus.approved "" 1 5000) := rfl
  rw [h3] at h1
  cases h1
  simp [applyTransition, sampleDeclined] at h2

/-- C6, amended: the transition handlers do not look at the current status.
An approve call by an admin on an existing order, and a decline call with
non-empty remarks, overwrite `status`, `remarks`, `approvedBy` and
`approvedAt` whatever the status was; no request puts a stored order back to
`pending`: across one request the status of a stored order is kept or becomes
`approved` or `declined`, and an order that appears is `pending`. -/
theorem order_transitions {Num : Type} [Mul Num] [Zero Num] [DecidableEq Num] (db : Store Num)
    (i : Nat) (o : Order Num) (h : db.orders[i]? = some o) :
    (∀ a : Action Num, ∃ o1, (step db a).orders[i]? = some o1 ∧
      (o1.status = o.status ∨ o1.status = OrderStatus.approved ∨
        o1.status = OrderStatus.declined)) ∧
    (∀ (a : Action Num) (j : Nat) (o1 : Order Num), db.orders[j]? = none →
      (step db a).orders[j]? = some o1 → o1.status = OrderStatus.pending) ∧
    (∀ (reqUser : ReqUser) (remarks : Option String) (now : Nat),
      reqUser.userType = UserType.admin →
      ∃ o1, (approveOrder db reqUser i remarks now).2.orders[i]? = some o1 ∧
        o1.status = OrderStatus.approved ∧ o1.remarks = remarks.getD "" ∧
        o1.approvedBy = some reqUser.userId ∧ o1.approvedAt = some now) ∧
    (∀ (reqUser : ReqUser) (remarks : Option String) (now : Nat),
      reqUser.userType = UserType.admin → remarks.getD "" ≠ "" →
      ∃ o1, (declineOrder db reqUser i remarks now).2.orders[i]? = some o1 ∧
        o1.status = OrderStatus.declined ∧ o1.remarks = remarks.getD "" ∧
        o1.approvedBy = some reqUser.userId ∧ o1.approvedAt = some now) := by
  have hi := getElem?_lt_of_eq_some h
  refine ⟨?_, ?_, ?_, ?_⟩
  · intro a
    rcases step_orders db a with h1 | ⟨o2, h1, -, -⟩ | ⟨j, o2, s, rem, adm, t, hj, hs, h1⟩
    · exact ⟨o, by rw [h1]; exact h, Or.inl rfl⟩
    · exact ⟨o, by rw [h1, List.getElem?_append_left hi]; exact h, Or.inl rfl⟩
    · by_cases hji : j = i
      · subst hji
        refine ⟨applyTransition o2 s rem adm t, by rw [h1, List.getElem?_set_self hi], Or.inr ?_⟩
        rcases hs with hs | hs
        · left; rw [hs]; rfl
        · right; rw [hs]; rfl
      · exact ⟨o, by rw [h1, List.getElem?_set_ne hji]; exact h, Or.inl rfl⟩
  · intro a j o1 hnone hsome
    have hj : db.orders.length ≤ j := by
      rcases Nat.lt_or_ge j db.orders.length with hlt | hge
      · rw [List.getElem?_eq_getElem hlt] at hnone; cases hnone
      · exact hge
    rcases step_orders db a with h1 | ⟨o2, h1, hp, -⟩ | ⟨k, o2, s, rem, adm, t, hk, hs, h1⟩
    · rw [h1, hnone] at hsome; cases hsome
    · rw [h1, List.getElem?_append_right hj] at hsome
      have hmem := List.getElem?_mem hsome
      rw [List.mem_singleton] at hmem
      rw [hmem]; exact hp
    · rw [h1] at hsome
      have := getElem?_lt_of_eq_some hsome
      rw [List.length_set] at this
      omega
  · intro reqUser remarks now hadmin
    refine ⟨applyTransition o OrderStatus.approved (remarks.getD "") reqUser.userId now, ?_,
      rfl, rfl, rfl, rfl⟩
    simp only [approveOrder, hadmin, ne_eq, not_true_eq_false, if_false, h]
    exact List.getElem?_set_self hi
  · intro reqUser remarks now hadmin hrem
    refine ⟨applyTransition o OrderStatus.declined (remarks.getD "") reqUser.userId now, ?_,
      rfl, rfl, rfl, rfl⟩
    simp only [declineOrder, hadmin, ne_eq, not_true_eq_false, if_false, h, hrem]
    exact List.getElem?_set_self hi

/-- Witness of C6 (amended): the declined sample order. -/
theorem order_transitions_witness :
    ∃ o1, (approveOrder sampleDeclinedStore adminToken 0 none 5000).2.orders[0]? = some o1 ∧
      o1.status = OrderStatus.approved ∧ o1.remarks = (none : Option String).getD "" ∧
      o1.approvedBy = some adminToken.userId ∧ o1.approvedAt = some 5000 :=
  (order_transitions sampleDeclinedStore 0 sampleDeclined rfl).2.2.1 adminToken none 5000 rfl

/-- C7: for an admin caller and any order id, a decline call whose remarks are
missing or empty is answered 400 and leaves the database as it was; a decline
call with non-empty remarks on an existing order is answered 200, sets the
status of that order to `declined`, stores those remarks (with the admin and
the time) and leaves every other order as it was. -/
theorem declineOrder_remarks {Num : Type} (db : Store Num) (reqUser : ReqUser) (orderId : Nat)
    (remarks : Option String) (now : Nat) (hadmin : reqUser.userType = UserType.admin) :
    (remarks = none ∨ remarks = some "" →
      declineOrder db reqUser orderId remarks now = (remarksRequired, db)) ∧
    (∀ (r : String) (o : Order Num), remarks = some r → r ≠ "" →
      db.orders[orderId]? = some o →
      (declineOrder db reqUser orderId remarks now).1.status = 200 ∧
      (∃ o1, (declineOrder db reqUser orderId remarks now).2.orders[orderId]? = some o1 ∧
        o1.status = OrderStatus.declined ∧ o1.remarks = r ∧
        o1.approvedBy = some reqUser.userId ∧ o1.approvedAt = some now) ∧
      (∀ j, j ≠ orderId →
        (declineOrder db reqUser orderId remarks now).2.orders[j]? = db.orders[j]?)) := by
  constructor
  · intro h
    rcases h with h | h <;> subst h <;>
      simp [declineOrder, hadmin, remarksRequired]
  · intro r o hr hne ho
    subst hr
    have hi := getElem?_lt_of_eq_some ho
    have heq : (declineOrder db reqUser orderId (some r) now).2.orders =
        db.orders.set orderId (applyTransition o OrderStatus.declined r reqUser.userId now) := by
      simp only [declineOrder, hadmin, ne_eq, not_true_eq_false, if_false, Option.getD_some,
        hne, ho]
    have hst : (declineOrder db reqUser orderId (some r) now).1.status = 200 := by
      simp only [declineOrder, hadmin, ne_eq, not_true_eq_false, if_false, Option.getD_some,
        hne, ho]
    rw [heq]
    refine ⟨hst, ⟨applyTransition o OrderStatus.declined r reqUser.userId now,
      List.getElem?_set_self hi, rfl, rfl, rfl, rfl⟩, ?_⟩
    intro j hj
    exact List.getElem?_set_ne (Ne.symm hj)

/-- Witness of C7: the admin declines with empty remarks. -/
theorem declineOrder_remarks_witness :
    declineOrder sampleStoreWithOrder adminToken 0 (some "") 4000 =
      (remarksRequired, sampleStoreWithOrder) :=
  (declineOrder_remarks sampleStoreWithOrder adminToken 0 (some "") 4000 rfl).1 (Or.inr rfl)

/-! ## Uniqueness of phone numbers -/

theorem map_set_same {α β : Type} (f : α → β) :
    ∀ (l : List α) (j : Nat) (b b1 : α), l[j]? = some b → f b1 = f b →
      (l.set j b1).map f = l.map f := by
  intro l
  induction l with
  | nil => intro j b b1 h; simp at h
  | cons c l ih =>
    intro j b b1 h hf
    cases j with
    | zero =>
      simp only [List.getElem?_cons_zero, Option.some.injEq] at h
      subst h
      simp [hf]
    | succ j =>
      simp only [List.getElem?_cons_succ] at h
      simp [ih j b b1 h hf]

/-- One request keeps the stored phone numbers pairwise distinct. -/
theorem step_phones_nodup {Num : Type} [Mul Num] [Zero Num] [DecidableEq Num] (db : Store Num)
    (a : Action Num) (h : (phones db).Nodup) : (phones (step db a)).Nodup := by
  unfold phones at h ⊢
  rcases step_users db a with h1 | ⟨u, h1, hnew⟩ | ⟨j, u, u1, hj, h1, hph, -⟩
  · rw [h1]; exact h
  · rw [h1, List.map_append, List.map_singleton]
    apply List.Nodup.append h (List.nodup_singleton _)
    intro q hq hq2
    rw [List.mem_singleton] at hq2
    subst hq2
    obtain ⟨v, hv, hvq⟩ := List.mem_map.mp hq
    have := (findOne_eq_none _ _).mp hnew v hv
    simp [hasPhone, hvq] at this
  · rw [h1, map_set_same _ _ _ _ _ hj hph]; exact h

theorem run_phones_nodup {Num : Type} [Mul Num] [Zero Num] [DecidableEq Num]
    (acts : List (Action Num)) :
    ∀ db : Store Num, (phones db).Nodup → (phones (run db acts)).Nodup := by
  induction acts with
  | nil => intro db h; exact h
  | cons a acts ih => intro db h; rw [run_cons]; exact ih _ (step_phones_nodup db a h)

/-- C8: a `register-farmer` request whose phone number is already stored on a
user record is answered 400 without token or OTP and leaves the database (the
existing record included) as it was; and the stored phone numbers stay
pairwise distinct along every sequence of requests, from the empty database
in particular. -/
theorem registerFarmer_duplicate_phone {Num : Type} [Mul Num] [Zero Num] [DecidableEq Num]
    (db : Store Num) (req : RegisterReq Num) (now : Nat) (r : ℚ) (p : String)
    (acts : List (Action Num))
    (hreq : req.phoneNumber = some p) (hstored : ∃ u ∈ db.users, u.phoneNumber = p) :
    (registerFarmer db req now r).1.status = 400 ∧
    ((registerFarmer db req now r).1 = alreadyRegistered ∨
      (registerFarmer db req now r).1 = registrationIncomplete) ∧
    (registerFarmer db req now r).1.body = none ∧
    (registerFarmer db req now r).2 = db ∧
    ((phones db).Nodup → (phones (run db acts)).Nodup) ∧
    (phones (run (emptyStore : Store Num) acts)).Nodup := by
  have hfound : ∃ x, findOne (hasPhone p) db.users = some x := by
    cases hf : findOne (hasPhone p) db.users with
    | some x => exact ⟨x, rfl⟩
    | none =>
      obtain ⟨u, hu, hup⟩ := hstored
      have := (findOne_eq_none _ _).mp hf u hu
      simp [hasPhone, hup] at this
  obtain ⟨x, hx⟩ := hfound
  have hout : registerFarmer db req now r = (alreadyRegistered, db) ∨
      registerFarmer db req now r = (registrationIncomplete, db) := by
    simp only [registerFarmer, hreq, Option.getD_some, hx]
    split
    · right; rfl
    · left; rfl
  refine ⟨?_, ?_, ?_, ?_, run_phones_nodup acts db, run_phones_nodup acts _ ?_⟩
  · rcases hout with h | h <;> rw [h] <;> rfl
  · rcases hout with h | h <;> rw [h]
    · left; rfl
    · right; rfl
  · rcases hout with h | h <;> rw [h] <;> rfl
  · rcases hout with h | h <;> rw [h]
  · simp [phones, emptyStore]

/-- Witness of C8: a second registration with the phone number of the sample
farmer. -/
theorem registerFarmer_duplicate_phone_witness :
    (registerFarmer sampleStore sampleDuplicate 5000 (1 / 2)).1.status = 400 ∧
    (registerFarmer sampleStore sampleDuplicate 5000 (1 / 2)).2 = sampleStore :=
  have h := registerFarmer_duplicate_phone sampleStore sampleDuplicate 5000 (1 / 2)
    "0788123456" [] rfl ⟨sampleFarmer, List.mem_singleton.mpr rfl, rfl⟩
  ⟨h.1, h.2.2.2.1⟩

/-! ## Binary64 rounding -/

theorem roundHalfEven_le {q : ℚ} {n : ℤ} (h : q < n + 1 / 2) : roundHalfEven q ≤ n := by
  have hf : (⌊q⌋ : ℚ) ≤ q := Int.floor_le q
  have h1 : ⌊q⌋ ≤ n := by
    have : (⌊q⌋ : ℚ) < (n : ℚ) + 1 := by linarith
    have : ⌊q⌋ < n + 1 := by exact_mod_cast this
    omega
  unfold roundHalfEven
  simp only
  split_ifs with h2 h3 h4
  · exact h1
  · have : (⌊q⌋ : ℚ) + 1 < (n : ℚ) + 1 := by linarith
    have : ⌊q⌋ + 1 < n + 1 := by exact_mod_cast this
    omega
  · exact h1
  · have h5 : q - ⌊q⌋ = 1 / 2 := le_antisymm (not_lt.mp h3) (not_lt.mp h2)
    have : (⌊q⌋ : ℚ) < (n : ℚ) := by linarith
    have : ⌊q⌋ < n := by exact_mod_cast this
    omega

theorem le_roundHalfEven {q : ℚ} {n : ℤ} (h : (n : ℚ) - 1 / 2 < q) : n ≤ roundHalfEven q := by
  have hf2 : q < ⌊q⌋ + 1 := Int.lt_floor_add_one q
  have h1 : n ≤ ⌊q⌋ + 1 := by
    have : (n : ℚ) < (⌊q⌋ : ℚ) + 1 + 1 := by linarith
    have : n < ⌊q⌋ + 1 + 1 := by exact_mod_cast this
    omega
  unfold roundHalfEven
  simp only
  split_ifs with h2 h3 h4
  · have : (n : ℚ) < (⌊q⌋ : ℚ) + 1 := by linarith
    have : n < ⌊q⌋ + 1 := by exact_mod_cast this
    omega
  · exact h1
  · have h5 : q - ⌊q⌋ = 1 / 2 := le_antisymm (not_lt.mp h3) (not_lt.mp h2)
    have : (n : ℚ) < (⌊q⌋ : ℚ) + 1 := by linarith
    have : n < ⌊q⌋ + 1 := by exact_mod_cast this
    omega
  · exact h1

theorem roundHalfEven_eq {q : ℚ} {n : ℤ} (h1 : (n : ℚ) - 1 / 2 < q) (h2 : q < n + 1 / 2) :
    roundHalfEven q = n :=
  le_antisymm (roundHalfEven_le h2) (le_roundHalfEven h1)

theorem abs_roundHalfEven_sub_le (q : ℚ) : |(roundHalfEven q : ℚ) - q| ≤ 1 / 2 := by
  have hf : (⌊q⌋ : ℚ) ≤ q := Int.floor_le q
  have hf2 : q < ⌊q⌋ + 1 := Int.lt_floor_add_one q
  unfold roundHalfEven
  simp only
  rw [abs_le]
  split_ifs with h2 h3 h4
  · constructor <;> linarith
  · push_cast; constructor <;> linarith
  · constructor <;> linarith
  · push_cast; constructor <;> linarith

theorem roundHalfEven_mono {p q : ℚ} (h : p ≤ q) : roundHalfEven p ≤ roundHalfEven q := by
  rcases eq_or_lt_of_le h with h | h
  · rw [h]
  · apply roundHalfEven_le
    have := abs_le.mp (abs_roundHalfEven_sub_le q)
    linarith [this.1]

theorem ulp_pos (x : ℚ) : 0 < ulp x := by unfold ulp; positivity

theorem pow52_mul (e : ℤ) : ((2 ^ 52 : ℤ) : ℚ) * 2 ^ (e - 52) = 2 ^ e := by
  have : ((2 ^ 52 : ℤ) : ℚ) = (2 : ℚ) ^ (52 : ℤ) := by norm_cast
  rw [this, ← zpow_add₀ (two_ne_zero)]; congr 1; ring

theorem pow53_mul (e : ℤ) : ((2 ^ 53 : ℤ) : ℚ) * 2 ^ (e - 52) = 2 ^ (e + 1) := by
  have : ((2 ^ 53 : ℤ) : ℚ) = (2 : ℚ) ^ (53 : ℤ) := by norm_cast
  rw [this, ← zpow_add₀ (two_ne_zero)]; congr 1; ring

theorem binade_of_pos {x : ℚ} (hx : 0 < x) :
    (2 : ℚ) ^ (Int.log 2 x) ≤ x ∧ x < (2 : ℚ) ^ (Int.log 2 x + 1) := by
  constructor
  · have := Int.zpow_log_le_self (b := 2) (by norm_num) hx
    exact_mod_cast this
  · have := Int.lt_zpow_succ_log_self (b := 2) (by norm_num) x
    exact_mod_cast this

theorem log_eq_of_binade {x : ℚ} {e : ℤ} (h1 : (2 : ℚ) ^ e ≤ x) (h2 : x < (2 : ℚ) ^ (e + 1)) :
    Int.log 2 x = e := by
  have hx : 0 < x := lt_of_lt_of_le (by positivity) h1
  have a : e ≤ Int.log 2 x :=
    (Int.zpow_le_iff_le_log (b := 2) (by norm_num) hx (x := e)).mp (by exact_mod_cast h1)
  have b : Int.log 2 x < e + 1 :=
    (Int.lt_zpow_iff_log_lt (b := 2) (by norm_num) hx (x := e + 1)).mp (by exact_mod_cast h2)
  omega

theorem expo_of_binade {x : ℚ} {e : ℤ} (he : -1022 ≤ e) (h1 : (2 : ℚ) ^ e ≤ x)
    (h2 : x < (2 : ℚ) ^ (e + 1)) : expo x = e := by
  have hx : 0 < x := lt_of_lt_of_le (by positivity) h1
  unfold expo
  rw [abs_of_pos hx, log_eq_of_binade h1 h2]
  exact max_eq_left he

/-- In the binade `[2^e, 2^(e+1))` of the normal range, `fl` rounds to a
multiple of `2^(e-52)`. -/
theorem fl_eq_of_binade {x : ℚ} {e : ℤ} (he : -1022 ≤ e) (h1 : (2 : ℚ) ^ e ≤ x)
    (h2 : x < (2 : ℚ) ^ (e + 1)) :
    fl x = roundHalfEven (x / 2 ^ (e - 52)) * 2 ^ (e - 52) := by
  unfold fl ulp
  rw [expo_of_binade he h1 h2]

theorem fl_zero : fl 0 = 0 := by
  unfold fl roundHalfEven; simp

theorem lt_top_expo {x : ℚ} (hx : 0 < x) : x < (2 : ℚ) ^ (expo x + 1) := by
  have h := (binade_of_pos hx).2
  have hle : Int.log 2 x + 1 ≤ expo x + 1 := by
    unfold expo; rw [abs_of_pos hx]; have := le_max_left (Int.log 2 x) (-1022); omega
  exact lt_of_lt_of_le h (zpow_le_zpow_right₀ (by norm_num) hle)

theorem fl_le_top {x : ℚ} (hx : 0 < x) : fl x ≤ (2 : ℚ) ^ (expo x + 1) := by
  have hu := ulp_pos x
  have h1 : roundHalfEven (x / ulp x) ≤ ((2 ^ 53 : ℤ)) := by
    apply roundHalfEven_le
    have : x / ulp x < ((2 ^ 53 : ℤ) : ℚ) := by
      rw [div_lt_iff₀ hu]; unfold ulp; rw [pow53_mul]; exact lt_top_expo hx
    linarith
  have h2 : (roundHalfEven (x / ulp x) : ℚ) ≤ ((2 ^ 53 : ℤ) : ℚ) := by exact_mod_cast h1
  calc fl x = roundHalfEven (x / ulp x) * ulp x := rfl
    _ ≤ ((2 ^ 53 : ℤ) : ℚ) * ulp x := mul_le_mul_of_nonneg_right h2 hu.le
    _ = _ := by unfold ulp; rw [pow53_mul]

theorem bot_le_fl {x : ℚ} (hx : 0 < x) (hn : -1022 ≤ Int.log 2 x) :
    (2 : ℚ) ^ (expo x) ≤ fl x := by
  have hu := ulp_pos x
  have he : expo x = Int.log 2 x := by
    unfold expo; rw [abs_of_pos hx]; exact max_eq_left hn
  have h1 : ((2 ^ 52 : ℤ)) ≤ roundHalfEven (x / ulp x) := by
    apply le_roundHalfEven
    have : ((2 ^ 52 : ℤ) : ℚ) ≤ x / ulp x := by
      rw [le_div_iff₀ hu]; unfold ulp; rw [pow52_mul, he]; exact (binade_of_pos hx).1
    linarith
  have h2 : ((2 ^ 52 : ℤ) : ℚ) ≤ (roundHalfEven (x / ulp x) : ℚ) := by exact_mod_cast h1
  calc (2 : ℚ) ^ (expo x) = ((2 ^ 52 : ℤ) : ℚ) * ulp x := by unfold ulp; rw [pow52_mul]
    _ ≤ roundHalfEven (x / ulp x) * ulp x := mul_le_mul_of_nonneg_right h2 hu.le

theorem fl_nonneg {x : ℚ} (hx : 0 ≤ x) : 0 ≤ fl x := by
  have hu := ulp_pos x
  have h1 : (0 : ℤ) ≤ roundHalfEven (x / ulp x) := by
    apply le_roundHalfEven
    have : 0 ≤ x / ulp x := div_nonneg hx hu.le
    push_cast; linarith
  have h2 : (0 : ℚ) ≤ (roundHalfEven (x / ulp x) : ℚ) := by exact_mod_cast h1
  exact mul_nonneg h2 hu.le

/-- Rounding is monotone. -/
theorem fl_mono {x y : ℚ} (hx : 0 ≤ x) (h : x ≤ y) : fl x ≤ fl y := by
  rcases eq_or_lt_of_le hx with h0 | h0
  · rw [← h0, fl_zero]; exact fl_nonneg (hx.trans h)
  have hy : 0 < y := lt_of_lt_of_le h0 h
  have hlog : Int.log 2 x ≤ Int.log 2 y := Int.log_mono_right h0 h
  have hle : expo x ≤ expo y := by
    unfold expo; rw [abs_of_pos h0, abs_of_pos hy]; exact max_le_max hlog le_rfl
  rcases eq_or_lt_of_le hle with he | he
  · have hu : ulp x = ulp y := by unfold ulp; rw [he]
    unfold fl
    rw [hu]
    apply mul_le_mul_of_nonneg_right _ (ulp_pos y).le
    have : roundHalfEven (x / ulp y) ≤ roundHalfEven (y / ulp y) :=
      roundHalfEven_mono (div_le_div_of_nonneg_right h (ulp_pos y).le)
    exact_mod_cast this
  · have hn : -1022 ≤ Int.log 2 y := by
      by_contra hc
      have h1 : expo y = -1022 := by
        unfold expo; rw [abs_of_pos hy]; exact max_eq_right (by omega)
      have h2 : -1022 ≤ expo x := by unfold expo; exact le_max_right _ _
      omega
    calc fl x ≤ (2 : ℚ) ^ (expo x + 1) := fl_le_top h0
      _ ≤ (2 : ℚ) ^ (expo y) := zpow_le_zpow_right₀ (by norm_num) (by omega)
      _ ≤ fl y := bot_le_fl hy hn

/-- The error of one rounding is at most half a unit in the last place. -/
theorem abs_fl_sub_le_ulp (x : ℚ) : |fl x - x| ≤ ulp x / 2 := by
  have hu := ulp_pos x
  have h := abs_roundHalfEven_sub_le (x / ulp x)
  have h3 : |fl x - x| = |(roundHalfEven (x / ulp x) : ℚ) - x / ulp x| * ulp x := by
    rw [← abs_of_pos hu, ← abs_mul, abs_of_pos hu]
    congr 1
    unfold fl
    field_simp
  rw [h3]
  calc _ ≤ 1 / 2 * ulp x := mul_le_mul_of_nonneg_right h hu.le
    _ = ulp x / 2 := by ring

/-- The unit in the last place of a positive `x` is at most `x / 2^52`, or the
subnormal spacing `2^(-1074)`. -/
theorem ulp_le {x : ℚ} (h0 : 0 < x) : ulp x ≤ x / 2 ^ 52 + 2 ^ (-1074 : ℤ) := by
  unfold ulp expo
  rw [abs_of_pos h0]
  rcases le_total (-1022) (Int.log 2 x) with hn | hn
  · rw [max_eq_left hn]
    have h1 := (binade_of_pos h0).1
    have h2 : (2 : ℚ) ^ (Int.log 2 x - 52) = 2 ^ (Int.log 2 x) / 2 ^ 52 := by
      rw [zpow_sub₀ (two_ne_zero)]; norm_cast
    rw [h2]
    have : (2 : ℚ) ^ (Int.log 2 x) / 2 ^ 52 ≤ x / 2 ^ 52 :=
      div_le_div_of_nonneg_right h1 (by positivity)
    have : (0 : ℚ) < 2 ^ (-1074 : ℤ) := by positivity
    linarith
  · rw [max_eq_right hn]
    have : (0 : ℚ) ≤ x / 2 ^ 52 := by positivity
    norm_num
    linarith

/-- The error of one rounding of a non-negative value: relative `2^(-53)`, or
half the subnormal spacing. -/
theorem abs_fl_sub_le {x : ℚ} (hx : 0 ≤ x) : |fl x - x| ≤ x / 2 ^ 53 + 2 ^ (-1075 : ℤ) := by
  rcases eq_or_lt_of_le hx with h0 | h0
  · rw [← h0, fl_zero]; simp; positivity
  have h1 := abs_fl_sub_le_ulp x
  have h2 := ulp_le h0
  have h3 : (2 : ℚ) ^ (-1075 : ℤ) = 2 ^ (-1074 : ℤ) / 2 := by
    rw [show (-1075 : ℤ) = -1074 - 1 by norm_num, zpow_sub₀ (two_ne_zero)]; simp
  rw [h3]
  have h4 : x / 2 ^ 53 = x / 2 ^ 52 / 2 := by rw [div_div]; norm_num
  rw [h4]
  linarith

/-- A double below one is at most `1 - 2^(-53)`. -/
theorem isDouble_lt_one {r : ℚ} (hd : isDouble r) (h1 : r < 1) : r ≤ 1 - 1 / 2 ^ 53 := by
  rcases lt_or_le r (1 / 2) with h | h
  · have : (1 : ℚ) / 2 ^ 53 ≤ 1 / 2 := by norm_num
    linarith
  · have hr := fl_eq_of_binade (x := r) (e := -1) (by norm_num) (by norm_num; linarith)
      (by norm_num; exact h1)
    unfold isDouble at hd
    rw [hd] at hr
    have hu : (2 : ℚ) ^ ((-1 : ℤ) - 52) = 1 / 2 ^ 53 := by
      rw [show ((-1 : ℤ) - 52) = -53 by norm_num, zpow_neg]; norm_num
    rw [hu] at hr
    set n := roundHalfEven (r / (1 / 2 ^ 53)) with hn
    have hlt : (n : ℚ) < 2 ^ 53 := by
      have : r = n / 2 ^ 53 := by rw [hr]; ring
      rw [this] at h1
      rw [div_lt_one (by positivity)] at h1
      exact h1
    have hlt2 : n < 2 ^ 53 := by exact_mod_cast hlt
    have hle : n ≤ 2 ^ 53 - 1 := by omega
    have hle2 : (n : ℚ) ≤ 2 ^ 53 - 1 := by exact_mod_cast hle
    rw [hr]
    have : (n : ℚ) * (1 / 2 ^ 53) ≤ (2 ^ 53 - 1) * (1 / 2 ^ 53) :=
      mul_le_mul_of_nonneg_right hle2 (by positivity)
    calc (n : ℚ) * (1 / 2 ^ 53) ≤ (2 ^ 53 - 1) * (1 / 2 ^ 53) := this
      _ = 1 - 1 / 2 ^ 53 := by ring

theorem fl_1000 : fl 1000 = 1000 := by
  rw [fl_eq_of_binade (e := 9) (by norm_num) (by norm_num) (by norm_num)]
  rw [roundHalfEven_eq (n := 1000 * 2 ^ 43) (by norm_num) (by norm_num)]
  norm_num

theorem fl_top_product : fl ((1 - 1 / 2 ^ 53) * 9000) = 9000 - 1 / 2 ^ 39 := by
  rw [fl_eq_of_binade (e := 13) (by norm_num) (by norm_num) (by norm_num)]
  rw [roundHalfEven_eq (n := 9000 * 2 ^ 39 - 1) (by norm_num) (by norm_num)]
  norm_num

theorem fl_top_sum : fl (1000 + (9000 - 1 / 2 ^ 39)) = 10000 - 1 / 2 ^ 39 := by
  rw [fl_eq_of_binade (e := 13) (by norm_num) (by norm_num) (by norm_num)]
  rw [roundHalfEven_eq (n := 10000 * 2 ^ 39 - 1) (by norm_num) (by norm_num)]
  norm_num

/-- The value floored by `generateOTP` lies in `[1000, 10000)` for every
double draw in `[0, 1)`. -/
theorem otp_value_bounds {r : ℚ} (hd : isDouble r) (h0 : 0 ≤ r) (h1 : r < 1) :
    1000 ≤ fl (1000 + fl (r * 9000)) ∧ fl (1000 + fl (r * 9000)) < 10000 := by
  have hr := isDouble_lt_one hd h1
  have hy0 : 0 ≤ fl (r * 9000) := fl_nonneg (by positivity)
  have hy1 : fl (r * 9000) ≤ 9000 - 1 / 2 ^ 39 := by
    rw [← fl_top_product]
    exact fl_mono (by positivity) (by linarith)
  constructor
  · calc (1000 : ℚ) = fl 1000 := fl_1000.symm
      _ ≤ _ := fl_mono (by norm_num) (by linarith)
  · calc fl (1000 + fl (r * 9000)) ≤ fl (1000 + (9000 - 1 / 2 ^ 39)) :=
        fl_mono (by linarith) (by linarith)
      _ = 10000 - 1 / 2 ^ 39 := fl_top_sum
      _ < 10000 := by norm_num

/-! ## Issuing a code -/

theorem digitChar_isDigit : ∀ d : Nat, d < 10 → (Nat.digitChar d).isDigit = true := by
  decide

/-- The decimal digits of a number between 1000 and 9999. -/
theorem toDigits_four (n : Nat) (h1 : 1000 ≤ n) (h2 : n ≤ 9999) :
    Nat.toDigits 10 n = [Nat.digitChar (n / 1000), Nat.digitChar (n / 100 % 10),
      Nat.digitChar (n / 10 % 10), Nat.digitChar (n % 10)] := by
  obtain ⟨k, hk⟩ : ∃ k, n + 1 = k + 4 := ⟨n - 3, by omega⟩
  have a1 : n / 10 ≠ 0 := by omega
  have a2 : n / 10 / 10 ≠ 0 := by omega
  have a3 : n / 10 / 10 / 10 ≠ 0 := by omega
  have a4 : n / 10 / 10 / 10 / 10 = 0 := by omega
  have b1 : n / 10 / 10 / 10 % 10 = n / 1000 := by omega
  have b2 : n / 10 / 10 % 10 = n / 100 % 10 := by omega
  unfold Nat.toDigits
  rw [hk]
  simp only [Nat.toDigitsCore, a1, a2, a3, a4, if_false, if_true, b1, b2]

/-- A number between 1000 and 9999 prints as four decimal digits. -/
theorem numToString_four (n : Nat) (h1 : 1000 ≤ n) (h2 : n ≤ 9999) :
    (numToString n).length = 4 ∧ (numToString n).toList.all Char.isDigit = true := by
  unfold numToString Nat.repr
  rw [toDigits_four n h1 h2]
  refine ⟨rfl, ?_⟩
  simp only [List.asString, String.toList, List.all_cons, List.all_nil, Bool.and_true,
    Bool.and_eq_true]
  exact ⟨digitChar_isDigit _ (by omega), digitChar_isDigit _ (by omega),
    digitChar_isDigit _ (by omega), digitChar_isDigit _ (by omega)⟩

/-- A 201 answer of `register-farmer` comes with the new user appended and
carries the code and expiry stored on it. -/
theorem registerFarmer_created {Num : Type} [Zero Num] [DecidableEq Num] (db : Store Num)
    (req : RegisterReq Num) (now : Nat) (r : ℚ)
    (hok : (registerFarmer db req now r).1.status = 201) :
    (∃ user1 : User Num, (registerFarmer db req now r).2.users = db.users ++ [user1] ∧
      user1.otp = some { code := generateOTP r, expiresAt := now + 300000, attempts := 0 }) ∧
    (registerFarmer db req now r).1.body.map (fun b => (b.otp, b.otpExpiry)) =
      some (generateOTP r, now + 300000) := by
  by_cases hnot : (!truthyStr req.phoneNumber || !truthyStr req.fullName ||
      !truthyNum req.landArea) = true
  · simp [registerFarmer, hnot] at hok
  cases hfo : findOne (hasPhone (req.phoneNumber.getD "")) db.users with
  | some x => simp [registerFarmer, hnot, hfo] at hok
  | none =>
    by_cases hcan : canInsertUser db (newFarmer req now r) = true
    · have heq : registerFarmer db req now r =
          (({ status := 201, message := "Registration successful. You are now logged in.",
              body := some { userId := db.users.length
                             token := { userId := db.users.length,
                                        phoneNumber := (newFarmer req now r).phoneNumber,
                                        userType := UserType.farmer }
                             otp := generateOTP r
                             otpExpiry := now + otpLifetime
                             user := { id := db.users.length,
                                       phoneNumber := (newFarmer req now r).phoneNumber,
                                       fullName := (newFarmer req now r).fullName,
                                       userType := UserType.farmer,
                                       landArea := req.landArea } } } :
              Response (RegisterBody Num)),
           { db with users := db.users ++ [newFarmer req now r] }) := by
        unfold newFarmer at hcan
        simp only [registerFarmer, hnot, hfo, hcan, if_true, Bool.false_eq_true, if_false,
          newFarmer]
      rw [heq]
      exact ⟨⟨newFarmer req now r, rfl, rfl⟩, rfl⟩
    · unfold newFarmer at hcan
      simp [registerFarmer, hnot, hfo, hcan, serverError] at hok

/-- C10: for every draw `r` of `Math.random()` (a double with `0 <= r < 1`)
the code `Math.floor(1000 + r * 9000).toString()`, evaluated in double
arithmetic, is the decimal string of a number between 1000 and 9999: exactly
four characters, all digits.  `request-otp` for a registered phone number
stores the envelope `{ code, expiresAt: now + 300000, attempts: 0 }` and
answers with the same code and expiry; so does every successful
`register-farmer`. -/
theorem otp_issue {Num : Type} [Zero Num] [DecidableEq Num] (db : Store Num) (phone : String)
    (now id : Nat) (r : ℚ) (user : User Num) (hd : isDouble r) (h0 : 0 ≤ r) (h1 : r < 1)
    (hphone : phone ≠ "") (hfind : findOne (hasPhone phone) db.users = some (id, user)) :
    (∃ n : Nat, n = ⌊fl (1000 + fl (r * 9000))⌋₊ ∧ generateOTP r = numToString n ∧
      1000 ≤ n ∧ n ≤ 9999) ∧
    (generateOTP r).length = 4 ∧ (generateOTP r).toList.all Char.isDigit = true ∧
    (requestOtp db (some phone) now r).1 =
      { status := 200, message := "New OTP sent to your phone",
        body := some { otp := generateOTP r, otpExpiry := now + 300000 } } ∧
    (∃ user1 : User Num,
      findOne (hasPhone phone) (requestOtp db (some phone) now r).2.users = some (id, user1) ∧
      user1.otp = some { code := generateOTP r, expiresAt := now + 300000, attempts := 0 }) ∧
    (∀ req : RegisterReq Num, (registerFarmer db req now r).1.status = 201 →
      (∃ user1 : User Num, (registerFarmer db req now r).2.users = db.users ++ [user1] ∧
        user1.otp = some { code := generateOTP r, expiresAt := now + 300000, attempts := 0 }) ∧
      (registerFarmer db req now r).1.body.map (fun b => (b.otp, b.otpExpiry)) =
        some (generateOTP r, now + 300000)) := by
  obtain ⟨hlo, hhi⟩ := otp_value_bounds hd h0 h1
  have hpos : (0 : ℚ) ≤ fl (1000 + fl (r * 9000)) := by linarith
  have hn1 : 1000 ≤ ⌊fl (1000 + fl (r * 9000))⌋₊ := by
    apply Nat.le_floor
    exact_mod_cast hlo
  have hn2 : ⌊fl (1000 + fl (r * 9000))⌋₊ ≤ 9999 := by
    have : ⌊fl (1000 + fl (r * 9000))⌋₊ < 10000 := by
      rw [Nat.floor_lt hpos]
      exact_mod_cast hhi
    omega
  have hfour := numToString_four _ hn1 hn2
  refine ⟨⟨_, rfl, rfl, hn1, hn2⟩, hfour.1, hfour.2, ?_, ?_, ?_⟩
  · simp only [requestOtp, truthyStr, ne_eq, hphone, not_false_eq_true, decide_True,
      Bool.not_true, Bool.false_eq_true, if_false, Option.getD_some, hfind, otpLifetime]
  · refine ⟨{ user with otp := some { code := generateOTP r, expiresAt := now + 300000,
                                      attempts := 0 } }, ?_, rfl⟩
    simp only [requestOtp, truthyStr, ne_eq, hphone, not_false_eq_true, decide_True,
      Bool.not_true, Bool.false_eq_true, if_false, Option.getD_some, hfind, otpLifetime]
    exact findOne_set_self _ _ _ _ _ hfind rfl
  · intro req hok
    exact registerFarmer_created db req now r hok

/-- Witness of C10: a new code for the sample farmer with the draw 1/2. -/
theorem otp_issue_witness :
    (generateOTP (1 / 2)).length = 4 ∧
    (requestOtp sampleStore (some "0788123456") 1000 (1 / 2)).1 =
      { status := 200, message := "New OTP sent to your phone",
        body := some { otp := generateOTP (1 / 2), otpExpiry := 1000 + 300000 } } :=
  have hd : isDouble (1 / 2) := by
    unfold isDouble
    rw [fl_eq_of_binade (e := -1) (by norm_num) (by norm_num) (by norm_num)]
    rw [roundHalfEven_eq (n := 2 ^ 52) (by norm_num) (by norm_num)]
    norm_num
  have h := otp_issue sampleStore "0788123456" 1000 0 (1 / 2) sampleFarmer hd (by norm_num)
    (by norm_num) (by decide) rfl
  ⟨h.2.1, h.2.2.2.1⟩

/-! ## Metrics -/

theorem fl_23_160 : fl (23 / 160) = 5179139571476070 / 2 ^ 55 := by
  rw [fl_eq_of_binade (e := -3) (by norm_num) (by norm_num) (by norm_num)]
  rw [roundHalfEven_eq (n := 5179139571476070) (by norm_num) (by norm_num)]
  norm_num

theorem fl_23_160_times_100 :
    fl (5179139571476070 / 2 ^ 55 * 100) = 8092405580431359 / 2 ^ 49 := by
  rw [fl_eq_of_binade (e := 3) (by norm_num) (by norm_num) (by norm_num)]
  rw [roundHalfEven_eq (n := 8092405580431359) (by norm_num) (by norm_num)]
  norm_num

/-- Sample renderings of `toFixed(2)`. -/
theorem renderHundredths_samples :
    renderHundredths 0 = "0.00" ∧ renderHundredths 5 = "0.05" ∧
    renderHundredths 1437 = "14.37" ∧ renderHundredths 10000 = "100.00" := by
  decide

/-- With 23 approved orders out of 160 the handler computes 14.374999999999998
and prints `14.37`. -/
theorem rate_23_160 : rate 23 160 = "14.37" := by
  have h : hundredths (8092405580431359 / 2 ^ 49) = 1437 := by
    unfold hundredths
    rw [Nat.floor_eq_iff (by norm_num)]
    constructor <;> norm_num
  unfold rate toFixed2
  rw [if_pos (by norm_num)]
  have h2 : ((23 : ℕ) : ℚ) / ((160 : ℕ) : ℚ) = 23 / 160 := by norm_num
  rw [h2, fl_23_160, fl_23_160_times_100, h]
  decide

/-- The exact percentage 14.375 rounds to 14.38, half up and half to even. -/
theorem exact_23_160 :
    toFixed2 ((23 : ℚ) / 160 * 100) = "14.38" ∧
    renderHundredths (roundHalfEven ((23 : ℚ) / 160 * 100 * 100)).toNat = "14.38" := by
  have h : hundredths ((23 : ℚ) / 160 * 100) = 1438 := by
    unfold hundredths
    rw [Nat.floor_eq_iff (by norm_num)]
    constructor <;> norm_num
  have hf : ⌊((23 : ℚ) / 160 * 100 * 100)⌋ = 1437 := by
    rw [Int.floor_eq_iff]
    constructor <;> norm_num
  have h2 : roundHalfEven ((23 : ℚ) / 160 * 100 * 100) = 1438 := by
    unfold roundHalfEven
    simp only [hf]
    norm_num
  constructor
  · unfold toFixed2; rw [h]; decide
  · rw [h2]; decide

theorem getMetrics_admin {Num : Type} (db : Store Num) (reqUser : ReqUser) (now : Nat)
    (hadmin : reqUser.userType = UserType.admin) :
    ∃ m : Metrics, getMetrics db reqUser now = { status := 200, message := "", body := some m } ∧
      m.totalOrders = db.orders.length ∧
      m.approvedOrders = countStatus db OrderStatus.approved ∧
      m.declinedOrders = countStatus db OrderStatus.declined ∧
      m.pendingOrders = countStatus db OrderStatus.pending ∧
      m.approvalRate = rate m.approvedOrders m.totalOrders ∧
      m.declinedRate = rate m.declinedOrders m.totalOrders ∧
      m.pendingRate = rate m.pendingOrders m.totalOrders := by
  simp only [getMetrics, hadmin, ne_eq, not_true_eq_false, if_false]
  exact ⟨_, rfl, rfl, rfl, rfl, rfl, rfl, rfl, rfl⟩

/-- C9 as stated fails on a tie: with 160 orders of which 23 are approved the
exact percentage is 14.375, which rounds to 14.38 (half up as well as half to
even), while the handler answers `14.37`. -/
theorem metrics_rate_tie_counterexample :
    ¬ ∀ (db : Store ℚ) (reqUser : ReqUser) (now : Nat) (m : Metrics),
        getMetrics db reqUser now = { status := 200, message := "", body := some m } →
        0 < m.totalOrders →
        m.approvalRate = toFixed2 ((m.approvedOrders : ℚ) / (m.totalOrders : ℚ) * 100) ∨
        m.approvalRate = renderHundredths
          (roundHalfEven ((m.approvedOrders : ℚ) / (m.totalOrders : ℚ) * 100 * 100)).toNat := by
  intro h
  obtain ⟨m, hm, ht, ha, -, -, hr, -, -⟩ := getMetrics_admin metricsStore adminToken 0 rfl
  have ht2 : m.totalOrders = 160 := by
    rw [ht]; simp [metricsStore]
  have ha2 : m.approvedOrders = 23 := by
    rw [ha]
    simp [countStatus, metricsStore, List.countP_append, List.countP_replicate, sampleApproved,
      sampleOrder]
  have h1 := h metricsStore adminToken 0 m hm (by omega)
  rw [hr, ha2, ht2, rate_23_160] at h1
  have h2 : (((23 : ℕ) : ℚ) / ((160 : ℕ) : ℚ) * 100) = (23 : ℚ) / 160 * 100 := by norm_num
  rw [h2, exact_23_160.1, exact_23_160.2] at h1
  revert h1
  decide

theorem fl_one : fl 1 = 1 := by
  rw [fl_eq_of_binade (e := 0) (by norm_num) (by norm_num) (by norm_num)]
  rw [roundHalfEven_eq (n := 2 ^ 52) (by norm_num) (by norm_num)]
  norm_num

/-- The three status counts add up to the number of orders. -/
theorem counts_sum {Num : Type} (db : Store Num) :
    countStatus db OrderStatus.approved + countStatus db OrderStatus.declined +
      countStatus db OrderStatus.pending = db.orders.length := by
  unfold countStatus
  induction db.orders with
  | nil => rfl
  | cons o l ih =>
    simp only [List.countP_cons, List.length_cons]
    cases hs : o.status <;> simp <;> omega

/-- The double computed by the rate expression is within `2.5e-14` of the
exact percentage. -/
theorem rate_value_error (c t : Nat) (hc : c ≤ t) (ht : 0 < t) :
    0 ≤ fl (fl ((c : ℚ) / (t : ℚ)) * 100) ∧
    |fl (fl ((c : ℚ) / (t : ℚ)) * 100) - (c : ℚ) / (t : ℚ) * 100| ≤ 1 / (4 * 10 ^ 13) := by
  have htq : (0 : ℚ) < (t : ℚ) := by exact_mod_cast ht
  have ha0 : (0 : ℚ) ≤ (c : ℚ) / (t : ℚ) := by positivity
  have ha1 : (c : ℚ) / (t : ℚ) ≤ 1 := by
    rw [div_le_one htq]; exact_mod_cast hc
  set a := (c : ℚ) / (t : ℚ) with ha
  have hfa0 : 0 ≤ fl a := fl_nonneg ha0
  have hfa1 : fl a ≤ 1 := by
    calc fl a ≤ fl 1 := fl_mono ha0 ha1
      _ = 1 := fl_one
  have he1 := abs_le.mp (abs_fl_sub_le ha0)
  have hb0 : 0 ≤ fl a * 100 := by positivity
  have he2 := abs_le.mp (abs_fl_sub_le hb0)
  have hs : (2 : ℚ) ^ (-1075 : ℤ) ≤ 1 / 2 ^ 100 := by
    calc (2 : ℚ) ^ (-1075 : ℤ) ≤ 2 ^ (-100 : ℤ) :=
          zpow_le_zpow_right₀ (by norm_num) (by norm_num)
      _ = 1 / 2 ^ 100 := by rw [zpow_neg, one_div]; norm_cast
  have hs0 : (0 : ℚ) < 2 ^ (-1075 : ℤ) := by positivity
  have k1 : a / 2 ^ 53 ≤ 1 / 2 ^ 53 := div_le_div_of_nonneg_right ha1 (by positivity)
  have k2 : fl a * 100 / 2 ^ 53 ≤ 100 / 2 ^ 53 :=
    div_le_div_of_nonneg_right (by linarith) (by positivity)
  have k3 : (200 : ℚ) / 2 ^ 53 + 101 * (1 / 2 ^ 100) ≤ 1 / (4 * 10 ^ 13) := by norm_num
  refine ⟨fl_nonneg hb0, ?_⟩
  rw [abs_le]
  constructor <;> linarith [he1.1, he1.2, he2.1, he2.2]

/-- The printed rate is a nearest hundredth of the exact percentage, up to the
error of the double computation. -/
theorem rate_isRateOf (c t : Nat) (hc : c ≤ t) (ht : 0 < t) : IsRateOf (rate c t) c t := by
  obtain ⟨hy0, hy⟩ := rate_value_error c t hc ht
  have hy := abs_le.mp hy
  set y := fl (fl ((c : ℚ) / (t : ℚ)) * 100) with hydef
  have htq : (0 : ℚ) < (t : ℚ) := by exact_mod_cast ht
  have hz : (0 : ℚ) ≤ y * 100 + 1 / 2 := by positivity
  have hn1 : ((hundredths y : ℕ) : ℚ) ≤ y * 100 + 1 / 2 := Nat.floor_le hz
  have hn2 : y * 100 + 1 / 2 < (hundredths y : ℚ) + 1 := Nat.lt_floor_add_one _
  refine ⟨hundredths y, ?_, ?_, ?_⟩
  · unfold rate toFixed2
    rw [if_pos ht]
  · rw [abs_le]
    constructor <;> linarith [hy.1, hy.2]
  · intro hbig
    have hbq : (t : ℚ) ≤ 10 ^ 11 := by exact_mod_cast hbig
    have hinv : 1 / (2 * 10 ^ 11 : ℚ) ≤ 1 / (2 * (t : ℚ)) :=
      one_div_le_one_div_of_le (by positivity) (by linarith)
    have hX : (c : ℚ) / (t : ℚ) * 100 * 100 * (2 * (t : ℚ)) = 20000 * (c : ℚ) := by
      field_simp; ring
    rw [abs_le]
    constructor
    · by_contra hcon
      rw [not_le] at hcon
      have h1 : (2 * (hundredths y : ℚ) + 1) * (t : ℚ) < 20000 * (c : ℚ) := by
        have : ((hundredths y : ℚ) + 1 / 2) * (2 * (t : ℚ)) <
            (c : ℚ) / (t : ℚ) * 100 * 100 * (2 * (t : ℚ)) :=
          mul_lt_mul_of_pos_right (by linarith) (by positivity)
        rw [hX] at this
        linarith
      have h2 : (2 * hundredths y + 1) * t < 20000 * c := by exact_mod_cast h1
      have h3 : (2 * hundredths y + 1) * t + 1 ≤ 20000 * c := h2
      have h4 : (2 * (hundredths y : ℚ) + 1) * (t : ℚ) + 1 ≤ 20000 * (c : ℚ) := by
        exact_mod_cast h3
      have h5 : (hundredths y : ℚ) + 1 / 2 + 1 / (2 * (t : ℚ)) ≤ (c : ℚ) / (t : ℚ) * 100 * 100 := by
        rw [← sub_nonneg]
        have : (c : ℚ) / (t : ℚ) * 100 * 100 - ((hundredths y : ℚ) + 1 / 2 + 1 / (2 * (t : ℚ))) =
            (20000 * (c : ℚ) - ((2 * (hundredths y : ℚ) + 1) * (t : ℚ) + 1)) / (2 * (t : ℚ)) := by
          field_simp; ring
        rw [this]
        apply div_nonneg (by linarith) (by positivity)
      have h6 : (1 : ℚ) / (2 * 10 ^ 11) > 100 * (1 / (4 * 10 ^ 13)) := by norm_num
      linarith [hy.1, hy.2]
    · by_contra hcon
      rw [not_le] at hcon
      have h1 : 20000 * (c : ℚ) + (t : ℚ) < 2 * (hundredths y : ℚ) * (t : ℚ) := by
        have : ((c : ℚ) / (t : ℚ) * 100 * 100 + 1 / 2) * (2 * (t : ℚ)) <
            (hundredths y : ℚ) * (2 * (t : ℚ)) :=
          mul_lt_mul_of_pos_right (by linarith) (by positivity)
        rw [add_mul, hX] at this
        linarith
      have h2 : 20000 * c + t < 2 * hundredths y * t := by exact_mod_cast h1
      have h3 : 20000 * c + t + 1 ≤ 2 * hundredths y * t := h2
      have h4 : 20000 * (c : ℚ) + (t : ℚ) + 1 ≤ 2 * (hundredths y : ℚ) * (t : ℚ) := by
        exact_mod_cast h3
      have h5 : (c : ℚ) / (t : ℚ) * 100 * 100 + 1 / 2 + 1 / (2 * (t : ℚ)) ≤ (hundredths y : ℚ) := by
        rw [← sub_nonneg]
        have : (hundredths y : ℚ) - ((c : ℚ) / (t : ℚ) * 100 * 100 + 1 / 2 + 1 / (2 * (t : ℚ))) =
            (2 * (hundredths y : ℚ) * (t : ℚ) - (20000 * (c : ℚ) + (t : ℚ) + 1)) /
              (2 * (t : ℚ)) := by
          field_simp; ring
        rw [this]
        apply div_nonneg (by linarith) (by positivity)
      have h6 : (1 : ℚ) / (2 * 10 ^ 11) > 100 * (1 / (4 * 10 ^ 13)) := by norm_num
      linarith [hy.1, hy.2]

/-- C9, amended: for an admin caller the metrics answer carries the three
status counts, which add up to `totalOrders`; with no order the three rates
are `'0.00'`; otherwise each rate is the two-decimal rendering of a number of
hundredths within `0.005 + 2.5e-14` of the exact `count / total * 100`, and
within `0.005` of it (a nearest hundredth) when there are at most `10^11`
orders.  On an exact tie `x.xx5` either neighbour can be printed. -/
theorem metrics_rates {Num : Type} (db : Store Num) (reqUser : ReqUser) (now : Nat)
    (hadmin : reqUser.userType = UserType.admin) :
    ∃ m : Metrics, getMetrics db reqUser now = { status := 200, message := "", body := some m } ∧
      m.totalOrders = db.orders.length ∧
      m.approvedOrders = countStatus db OrderStatus.approved ∧
      m.declinedOrders = countStatus db OrderStatus.declined ∧
      m.pendingOrders = countStatus db OrderStatus.pending ∧
      m.approvedOrders + m.declinedOrders + m.pendingOrders = m.totalOrders ∧
      (m.totalOrders = 0 →
        m.approvalRate = "0.00" ∧ m.declinedRate = "0.00" ∧ m.pendingRate = "0.00") ∧
      (0 < m.totalOrders →
        IsRateOf m.approvalRate m.approvedOrders m.totalOrders ∧
        IsRateOf m.declinedRate m.declinedOrders m.totalOrders ∧
        IsRateOf m.pendingRate m.pendingOrders m.totalOrders) := by
  obtain ⟨m, hm, ht, ha, hd, hp, hra, hrd, hrp⟩ := getMetrics_admin db reqUser now hadmin
  have hsum : m.approvedOrders + m.declinedOrders + m.pendingOrders = m.totalOrders := by
    rw [ha, hd, hp, ht]; exact counts_sum db
  refine ⟨m, hm, ht, ha, hd, hp, hsum, ?_, ?_⟩
  · intro h0
    rw [hra, hrd, hrp, h0]
    simp [rate]
  · intro hpos
    rw [hra, hrd, hrp]
    exact ⟨rate_isRateOf _ _ (by omega) hpos, rate_isRateOf _ _ (by omega) hpos,
      rate_isRateOf _ _ (by omega) hpos⟩

/-- Witness of C9 (amended): the metrics of the database with 160 orders. -/
theorem metrics_rates_witness :
    ∃ m : Metrics, getMetrics metricsStore adminToken 0 =
        { status := 200, message := "", body := some m } ∧
      m.approvedOrders + m.declinedOrders + m.pendingOrders = m.totalOrders ∧
      (0 < m.totalOrders → IsRateOf m.approvalRate m.approvedOrders m.totalOrders) :=
  match metrics_rates metricsStore adminToken 0 rfl with
  | ⟨m, hm, _, _, _, _, hsum, _, hr⟩ => ⟨m, hm, hsum, fun h => (hr h).1⟩

/-! ## Stored documents stay valid -/

theorem validateUser_congr {Num : Type} (u u1 : User Num) (h1 : u1.phoneNumber = u.phoneNumber)
    (h2 : u1.fullName = u.fullName) (h3 : u1.userType = u.userType)
    (h4 : u1.landArea = u.landArea) : validateUser u1 = validateUser u := by
  simp only [validateUser, h1, h2, h3, h4]

/-- One request keeps every stored user valid. -/
theorem step_users_valid {Num : Type} [Mul Num] [Zero Num] [DecidableEq Num] (db : Store Num)
    (a : Action Num) (h : ∀ u ∈ db.users, validateUser u = true) :
    ∀ u ∈ (step db a).users, validateUser u = true := by
  have hset : ∀ (id : Nat) (user user1 : User Num), db.users[id]? = some user →
      validateUser user1 = validateUser user →
      ∀ u ∈ db.users.set id user1, validateUser u = true := by
    intro id user user1 hget hv u hu
    rcases List.mem_or_eq_of_mem_set hu with hm | hm
    · exact h u hm
    · rw [hm, hv]; exact h user (List.getElem?_mem hget)
  have happ : ∀ user1 : User Num, validateUser user1 = true →
      ∀ u ∈ db.users ++ [user1], validateUser u = true := by
    intro user1 hv u hu
    rcases List.mem_append.mp hu with hm | hm
    · exact h u hm
    · rw [List.mem_singleton] at hm; rw [hm]; exact hv
  cases a with
  | registerFarmer req now r =>
    simp only [step, registerFarmer]; split
    · exact h
    · split
      · exact h
      · split
        · rename_i hc
          simp only [canInsertUser, Bool.and_eq_true] at hc
          exact happ _ hc.1
        · exact h
  | verifyOtp p o now =>
    simp only [step, verifyOtp]; split
    · exact h
    · split
      · exact h
      · rename_i id user hfind
        have hget := (findOne_some _ _ _ _ hfind).1
        split
        · exact h
        · split
          · exact h
          · split
            · exact h
            · split
              · exact hset id user _ hget (validateUser_congr _ _ rfl rfl rfl rfl)
              · exact hset id user _ hget (validateUser_congr _ _ rfl rfl rfl rfl)
  | requestOtp p now r =>
    simp only [step, requestOtp]; split
    · exact h
    · split
      · exact h
      · rename_i id user hfind
        have hget := (findOne_some _ _ _ _ hfind).1
        exact hset id user _ hget (validateUser_congr _ _ rfl rfl rfl rfl)
  | adminLogin p o now =>
    simp only [step, adminLogin]; split
    · exact h
    · split
      · exact h
      · split
        · rename_i hc
          simp only [canInsertUser, Bool.and_eq_true] at hc
          exact happ _ hc.1
        · exact h
  | submitOrder u f now =>
    have : (step db (Action.submitOrder u f now)).users = db.users := by
      simp only [step, submitOrder]; split
      · rfl
      · split
        · rfl
        · split
          · rfl
          · split
            · rfl
            · split <;> rfl
    rw [this]; exact h
  | approveOrder u i rem now =>
    have : (step db (Action.approveOrder u i rem now)).users = db.users := by
      simp only [step, approveOrder]; split
      · rfl
      · split <;> rfl
    rw [this]; exact h
  | declineOrder u i rem now =>
    have : (step db (Action.declineOrder u i rem now)).users = db.users := by
      simp only [step, declineOrder]; split
      · rfl
      · split
        · rfl
        · split <;> rfl
    rw [this]; exact h
  | createFertilizer u req now =>
    have : (step db (Action.createFertilizer u req now)).users = db.users := by
      simp only [step, createFertilizer]; split
      · rfl
      · split
        · rfl
        · split
          · rfl
          · split <;> rfl
    rw [this]; exact h
  | updateFertilizer u i req now =>
    have : (step db (Action.updateFertilizer u i req now)).users = db.users := by
      simp only [step, updateFertilizer]; split
      · rfl
      · split <;> rfl
    rw [this]; exact h

/-- One request leaves the fertilizers as they are, appends a valid one, or
rewrites one keeping its name. -/
theorem step_fertilizers {Num : Type} [Mul Num] [Zero Num] [DecidableEq Num] (db : Store Num)
    (a : Action Num) :
    (step db a).fertilizers = db.fertilizers ∨
    (∃ f : Fertilizer Num, (step db a).fertilizers = db.fertilizers ++ [f] ∧
      validateFertilizer f = true ∧ findOne (hasName f.name) db.fertilizers = none) ∨
    (∃ (reqUser : ReqUser) (i : Nat) (req : UpdateFertilizerReq Num) (now : Nat)
      (f : Fertilizer Num), a = Action.updateFertilizer reqUser i req now ∧
      db.fertilizers[i]? = some f ∧
      (step db a).fertilizers = db.fertilizers.set i (applyFertilizerUpdate f req reqUser.userId now)) := by
  cases a with
  | registerFarmer req now r =>
    left; simp only [step, registerFarmer]; split
    · rfl
    · split
      · rfl
      · split <;> rfl
  | verifyOtp p o now =>
    left; simp only [step, verifyOtp]; split
    · rfl
    · split
      · rfl
      · split
        · rfl
        · split
          · rfl
          · split
            · rfl
            · split <;> rfl
  | requestOtp p now r =>
    left; simp only [step, requestOtp]; split
    · rfl
    · split <;> rfl
  | adminLogin p o now =>
    left; simp only [step, adminLogin]; split
    · rfl
    · split
      · rfl
      · split <;> rfl
  | submitOrder u f now =>
    left; simp only [step, submitOrder]; split
    · rfl
    · split
      · rfl
      · split
        · rfl
        · split
          · rfl
          · split <;> rfl
  | approveOrder u i rem now =>
    left; simp only [step, approveOrder]; split
    · rfl
    · split <;> rfl
  | declineOrder u i rem now =>
    left; simp only [step, declineOrder]; split
    · rfl
    · split
      · rfl
      · split <;> rfl
  | createFertilizer u req now =>
    simp only [step, createFertilizer]; split
    · left; rfl
    · split
      · left; rfl
      · split
        · left; rfl
        · split
          · rename_i hc
            simp only [canInsertFertilizer, Bool.and_eq_true, Option.isNone_iff_eq_none] at hc
            right; left; exact ⟨_, rfl, hc.1, hc.2⟩
          · left; rfl
  | updateFertilizer u i req now =>
    simp only [step, updateFertilizer]; split
    · left; rfl
    · split
      · left; rfl
      · rename_i f hf
        right; right; exact ⟨u, i, req, now, f, rfl, hf, rfl⟩

/-- Every request preserves the validity of the stored users and
fertilizers; in particular it holds in every state reached from the empty
database. -/
theorem run_valid {Num : Type} [Mul Num] [Zero Num] [DecidableEq Num]
    (acts : List (Action Num)) :
    ∀ db : Store Num, StoreValid db → StoreValid (run db acts) := by
  induction acts with
  | nil => intro db h; exact h
  | cons a acts ih =>
    intro db h
    rw [run_cons]
    apply ih
    refine ⟨step_users_valid db a h.1, ?_⟩
    intro f hf
    rcases step_fertilizers db a with h1 | ⟨g, h1, hv, -⟩ | ⟨ru, i, req, now, g, -, hg, h1⟩
    · rw [h1] at hf; exact h.2 f hf
    · rw [h1] at hf
      rcases List.mem_append.mp hf with hm | hm
      · exact h.2 f hm
      · rw [List.mem_singleton] at hm; rw [hm]; exact hv
    · rw [h1] at hf
      rcases List.mem_or_eq_of_mem_set hf with hm | hm
      · exact h.2 f hm
      · rw [hm]
        have := h.2 g (List.getElem?_mem hg)
        simpa [validateFertilizer, applyFertilizerUpdate] using this

theorem emptyStore_valid {Num : Type} : StoreValid (emptyStore : Store Num) := by
  constructor <;> intro x hx <;> simp [emptyStore] at hx

/-! ## Fertilizer rates -/

theorem applyFertilizerUpdate_rate {Num : Type} [Zero Num] [DecidableEq Num]
    (f : Fertilizer Num) (req : UpdateFertilizerReq Num) (adminId now : Nat) :
    (applyFertilizerUpdate f req adminId now).ratePerHectare =
      updatedRate f.ratePerHectare req.ratePerHectare := by
  cases h : req.ratePerHectare with
  | none => simp [applyFertilizerUpdate, updatedRate, truthyNum, h]
  | some x =>
    by_cases hx : x = 0
    · simp [applyFertilizerUpdate, updatedRate, truthyNum, h, hx]
    · simp [applyFertilizerUpdate, updatedRate, truthyNum, h, hx]

theorem updatedRate_ne_zero {Num : Type} [Zero Num] [DecidableEq Num] (stored : Num)
    (req : Option Num) (h : stored ≠ 0) : updatedRate stored req ≠ 0 := by
  cases req with
  | none => exact h
  | some x =>
    by_cases hx : x = 0
    · simp [updatedRate, hx, h]
    · simp [updatedRate, hx]

/-- What `POST /admin/fertilizers` does to the collection: nothing, or it
appends a fertilizer carrying the requested rate, which is a non-zero
number. -/
theorem createFertilizer_fertilizers {Num : Type} [Zero Num] [DecidableEq Num] (db : Store Num)
    (reqUser : ReqUser) (req : CreateFertilizerReq Num) (now : Nat) :
    (createFertilizer db reqUser req now).2.fertilizers = db.fertilizers ∨
    ∃ (x : Num) (f : Fertilizer Num), req.ratePerHectare = some x ∧ x ≠ 0 ∧
      f.ratePerHectare = x ∧
      (createFertilizer db reqUser req now).2.fertilizers = db.fertilizers ++ [f] := by
  simp only [createFertilizer]
  split
  · left; rfl
  · split
    · left; rfl
    · rename_i hnot
      split
      · left; rfl
      · split
        · right
          cases hr : req.ratePerHectare with
          | none => simp [truthyNum, hr] at hnot
          | some x =>
            have hx : x ≠ 0 := by
              intro hx
              simp [truthyNum, hr, hx] at hnot
            exact ⟨x, _, rfl, hx, by simp [hr], rfl⟩
        · left; rfl

/-- One request never introduces a zero rate. -/
theorem step_rate_ne_zero {Num : Type} [Mul Num] [Zero Num] [DecidableEq Num] (db : Store Num)
    (a : Action Num) (h : ∀ f ∈ db.fertilizers, f.ratePerHectare ≠ 0) :
    ∀ f ∈ (step db a).fertilizers, f.ratePerHectare ≠ 0 := by
  intro f hf
  rcases step_fertilizers db a with h1 | ⟨g, h1, -, -⟩ | ⟨ru, i, req, now, g, -, hg, h1⟩
  · rw [h1] at hf; exact h f hf
  · cases a with
    | createFertilizer u req now =>
      rcases createFertilizer_fertilizers db u req now with h2 | ⟨x, g2, -, hx, hg2, h2⟩
      · simp only [step] at hf
        rw [h2] at hf
        exact h f hf
      · simp only [step] at hf
        rw [h2] at hf
        rcases List.mem_append.mp hf with hm | hm
        · exact h f hm
        · rw [List.mem_singleton] at hm
          rw [hm, hg2]; exact hx
    | registerFarmer req now r =>
      have h2 : (step db (Action.registerFarmer req now r)).fertilizers = db.fertilizers := by
        simp only [step, registerFarmer]; split
        · rfl
        · split
          · rfl
          · split <;> rfl
      rw [h2] at hf; exact h f hf
    | verifyOtp p o now =>
      have h2 : (step db (Action.verifyOtp p o now)).fertilizers = db.fertilizers := by
        simp only [step, verifyOtp]; split
        · rfl
        · split
          · rfl
          · split
            · rfl
            · split
              · rfl
              · split
                · rfl
                · split <;> rfl
      rw [h2] at hf; exact h f hf
    | requestOtp p now r =>
      have h2 : (step db (Action.requestOtp p now r)).fertilizers = db.fertilizers := by
        simp only [step, requestOtp]; split
        · rfl
        · split <;> rfl
      rw [h2] at hf; exact h f hf
    | adminLogin p o now =>
      have h2 : (step db (Action.adminLogin p o now)).fertilizers = db.fertilizers := by
        simp only [step, adminLogin]; split
        · rfl
        · split
          · rfl
          · split <;> rfl
      rw [h2] at hf; exact h f hf
    | submitOrder u fid now =>
      have h2 : (step db (Action.submitOrder u fid now)).fertilizers = db.fertilizers := by
        simp only [step, submitOrder]; split
        · rfl
        · split
          · rfl
          · split
            · rfl
            · split
              · rfl
              · split <;> rfl
      rw [h2] at hf; exact h f hf
    | approveOrder u i rem now =>
      have h2 : (step db (Action.approveOrder u i rem now)).fertilizers = db.fertilizers := by
        simp only [step, approveOrder]; split
        · rfl
        · split <;> rfl
      rw [h2] at hf; exact h f hf
    | declineOrder u i rem now =>
      have h2 : (step db (Action.declineOrder u i rem now)).fertilizers = db.fertilizers := by
        simp only [step, declineOrder]; split
        · rfl
        · split
          · rfl
          · split <;> rfl
      rw [h2] at hf; exact h f hf
    | updateFertilizer u i req now =>
      have h2 : (step db (Action.updateFertilizer u i req now)).fertilizers.length =
          db.fertilizers.length := by
        simp only [step, updateFertilizer]; split
        · rfl
        · split
          · rfl
          · simp
      rw [h1] at h2
      simp at h2
  · rw [h1] at hf
    rcases List.mem_or_eq_of_mem_set hf with hm | hm
    · exact h f hm
    · rw [hm, applyFertilizerUpdate_rate]
      exact updatedRate_ne_zero _ _ (h g (List.getElem?_mem hg))

theorem run_rate_ne_zero {Num : Type} [Mul Num] [Zero Num] [DecidableEq Num]
    (acts : List (Action Num)) :
    ∀ db : Store Num, (∀ f ∈ db.fertilizers, f.ratePerHectare ≠ 0) →
      ∀ f ∈ (run db acts).fertilizers, f.ratePerHectare ≠ 0 := by
  induction acts with
  | nil => intro db h; exact h
  | cons a acts ih => intro db h; rw [run_cons]; exact ih _ (step_rate_ne_zero db a h)

/-- The database after the admin created a fertilizer with rate -5 and then
set its rate to -3. -/
theorem negativeRateActions_run :
    (run (emptyStore : Store ℚ) negativeRateActions).fertilizers =
      [{ name := "Lime", ratePerHectare := -3, unit := "kg", description := "",
         isActive := true, updatedByAdmin := some 1, updatedAt := 2000, createdAt := 1000 }] := by
  have hcreate : step (emptyStore : Store ℚ) (Action.createFertilizer adminToken negativeRateReq 1000) =
      { users := [], fertilizers :=
          [{ name := "Lime", ratePerHectare := -5, unit := "kg", description := "",
             isActive := true, updatedByAdmin := some 1, updatedAt := 1000, createdAt := 1000 }],
        orders := [] } := by
    simp [step, createFertilizer, adminToken, negativeRateReq, truthyStr, truthyNum, emptyStore,
      findOne, canInsertFertilizer, validateFertilizer]
  simp only [negativeRateActions, run, List.foldl_cons, List.foldl_nil, hcreate]
  simp [step, updateFertilizer, adminToken, negativeRateEdit, applyFertilizerUpdate, truthyNum]

/-- C11 as stated fails: both fertilizer handlers only test that the rate is
truthy, so the admin can create a fertilizer with rate -5 and then set its
rate to -3; the reached state holds a fertilizer whose rate is not
positive. -/
theorem positive_rate_counterexample :
    ¬ ∀ acts : List (Action ℚ), (∀ a ∈ acts, isFertilizerAction a = true) →
        ∀ f ∈ (run (emptyStore : Store ℚ) acts).fertilizers, 0 < f.ratePerHectare := by
  intro h
  have h1 := h negativeRateActions (by simp [negativeRateActions, isFertilizerAction])
  rw [negativeRateActions_run] at h1
  have h2 := h1 _ (List.mem_singleton.mpr rfl)
  norm_num at h2

/-- C11, amended: the fertilizer handlers keep stored rates different from
zero, not positive.  In every state reached from a database without zero
rates (the empty one in particular) no stored rate is zero; `POST
/admin/fertilizers` by an admin answers 400 and writes nothing when the rate
is missing or zero, and stores any other rate as given, whatever its sign;
`PUT /admin/fertilizers/:id` by an admin stores the requested rate when it is
a non-zero number, whatever its sign, and keeps the stored rate otherwise. -/
theorem fertilizer_rate_ne_zero {Num : Type} [Mul Num] [Zero Num] [DecidableEq Num]
    (db : Store Num) (acts : List (Action Num)) (reqUser : ReqUser) (now : Nat)
    (hrates : ∀ f ∈ db.fertilizers, f.ratePerHectare ≠ 0)
    (hadmin : reqUser.userType = UserType.admin) :
    (∀ f ∈ (run db acts).fertilizers, f.ratePerHectare ≠ 0) ∧
    (∀ f ∈ (run (emptyStore : Store Num) acts).fertilizers, f.ratePerHectare ≠ 0) ∧
    (∀ req : CreateFertilizerReq Num,
      req.ratePerHectare = none ∨ req.ratePerHectare = some 0 →
      createFertilizer db reqUser req now = (nameAndRateRequired, db)) ∧
    (∀ (req : CreateFertilizerReq Num) (name : String) (x : Num),
      req.name = some name → name ≠ "" → req.ratePerHectare = some x → x ≠ 0 →
      findOne (hasName name) db.fertilizers = none →
      (createFertilizer db reqUser req now).1.status = 201 ∧
      ∃ f : Fertilizer Num,
        (createFertilizer db reqUser req now).2.fertilizers = db.fertilizers ++ [f] ∧
        f.name = name ∧ f.ratePerHectare = x) ∧
    (∀ (i : Nat) (req : UpdateFertilizerReq Num) (f : Fertilizer Num),
      db.fertilizers[i]? = some f →
      (updateFertilizer db reqUser i req now).1.status = 200 ∧
      ∃ f1 : Fertilizer Num,
        (updateFertilizer db reqUser i req now).2.fertilizers[i]? = some f1 ∧
        f1.ratePerHectare = updatedRate f.ratePerHectare req.ratePerHectare) := by
  refine ⟨run_rate_ne_zero acts db hrates, run_rate_ne_zero acts _ ?_, ?_, ?_, ?_⟩
  · intro f hf
    simp [emptyStore] at hf
  · intro req hreq
    rcases hreq with hreq | hreq <;>
      simp [createFertilizer, hadmin, truthyNum, hreq, nameAndRateRequired]
  · intro req name x hname hne hrate hx hfind
    have hout : createFertilizer db reqUser req now =
        (({ status := 201, message := "Fertilizer added successfully",
            body := some { id := db.fertilizers.length, name := name, ratePerHectare := x,
                           unit := req.unit.getD "kg", isActive := true } } :
            Response (FertilizerBody Num)),
         { db with fertilizers := db.fertilizers ++
             [{ name := name, ratePerHectare := x, unit := req.unit.getD "kg",
                description := req.description.getD "", isActive := true,
                updatedByAdmin := some reqUser.userId, updatedAt := now, createdAt := now }] }) := by
      simp [createFertilizer, hadmin, truthyStr, truthyNum, hname, hne, hrate, hx, hfind,
        canInsertFertilizer, validateFertilizer]
    rw [hout]
    exact ⟨rfl, _, rfl, rfl, rfl⟩
  · intro i req f hf
    have hi := getElem?_lt_of_eq_some hf
    have hst : (updateFertilizer db reqUser i req now).1.status = 200 := by
      simp only [updateFertilizer, hadmin, ne_eq, not_true_eq_false, if_false, hf]
    have hfs : (updateFertilizer db reqUser i req now).2.fertilizers =
        db.fertilizers.set i (applyFertilizerUpdate f req reqUser.userId now) := by
      simp only [updateFertilizer, hadmin, ne_eq, not_true_eq_false, if_false, hf]
    refine ⟨hst, applyFertilizerUpdate f req reqUser.userId now, ?_,
      applyFertilizerUpdate_rate f req reqUser.userId now⟩
    rw [hfs]
    exact List.getElem?_set_self hi

/-- Witness of C11 (amended): on the sample database the admin sets the rate
of the sample fertilizer to -3. -/
theorem fertilizer_rate_ne_zero_witness :
    (∀ f ∈ sampleStore.fertilizers, f.ratePerHectare ≠ 0) ∧
    ∃ f1 : Fertilizer ℚ,
      (updateFertilizer sampleStore adminToken 0 negativeRateEdit 2000).2.fertilizers[0]? =
        some f1 ∧
      f1.ratePerHectare = updatedRate sampleFertilizer.ratePerHectare
        negativeRateEdit.ratePerHectare :=
  have h : ∀ f ∈ sampleStore.fertilizers, f.ratePerHectare ≠ 0 := by
    intro f hf
    simp only [sampleStore, List.mem_singleton] at hf
    subst hf
    norm_num [sampleFertilizer]
  ⟨h, ((fertilizer_rate_ne_zero sampleStore [] adminToken 2000 h rfl).2.2.2.2 0
    negativeRateEdit sampleFertilizer rfl).2⟩

/-! ## Issue and verify -/

end FOS
